import Mathlib

/-!
Verification of the DataPrism tooling CDN deployment core.

Shallow embedding of the CDN Deployment & Validation Pipeline of the
`dataprism-tooling` repository:

* the Vite manifest plugin (`tools/build/manifest-plugin.ts` together with
  `tools/build/types.ts`): asset info creation, manifest generation,
  integrity map, bundle-size validation;
* the deployment orchestrator (`tools/deployment/deploy.ts`):
  configuration loading, asset-bundle preparation (directory scan),
  dry-run handling, provider dispatch;
* the base deployment provider (`tools/deployment/providers/base-provider.ts`):
  the `withRetry` exponential-backoff combinator;
* the deployment validator (`tools/deployment/validator.ts`): the full
  battery of validation checks and the overall-success policy.

Node cryptographic digests (`createHash("sha384")`, `createHash("sha256")`)
and the hex-to-base64 conversion are external library primitives; they are
modelled as arbitrary (deterministic) function parameters, which is exactly
what the determinism and invariant claims need.
-/

namespace DataPrism

/-!
Several core `String` operations (`splitOn`, `map`, `take`, `toLower`,
`startsWith`, `toNat?`) are defined by well-founded recursion on byte
positions and therefore do not reduce inside the kernel.  The embedding uses
the following extensionally equivalent character-list implementations, so
that every concrete theorem instance can be settled by `decide`. -/

/-- Splitter on a non-empty separator, by fuel (one character of progress
per step); with fuel `≥ l.length` this is the standard non-overlapping
left-to-right split, matching `String.splitOn` / JS `String.split`. -/
def splitGo (sep : List Char) : Nat → List Char → List (List Char)
  | _, [] => [[]]
  | 0, l => [l]
  | fuel + 1, c :: rest =>
    if sep.isPrefixOf (c :: rest) then
      [] :: splitGo sep fuel ((c :: rest).drop sep.length)
    else
      match splitGo sep fuel rest with
      | [] => [[c]]
      | x :: xs => (c :: x) :: xs

/-- The `s.splitOn sep` (with the `String.splitOn` convention that an empty
separator yields `[s]`). -/
def jsSplitOn (s sep : String) : List String :=
  if sep = "" then [s]
  else (splitGo sep.data s.data.length s.data).map String.mk

/-- The `s.take n` for the ASCII strings of this development. -/
def strTake (s : String) (n : Nat) : String :=
  String.mk (s.data.take n)

/-- The `s.toLowerCase()` / `String.toLower`. -/
def strToLower (s : String) : String :=
  String.mk (s.data.map Char.toLower)

/-- The `s.startsWith pre`. -/
def jsStartsWith (s pre : String) : Bool :=
  pre.data.isPrefixOf s.data

/-- The `s.endsWith suf`. -/
def jsEndsWith (s suf : String) : Bool :=
  suf.data.isSuffixOf s.data

/-- The `String.toNat?` / `parseInt` on an all-digit string. -/
def parseNatDigits (s : String) : Option Nat :=
  if s.data ≠ [] ∧ s.data.all Char.isDigit then
    some (s.data.foldl (fun a c => a * 10 + (c.toNat - 48)) 0)
  else none

/-- JavaScript `String.prototype.includes(pat)` for a non-empty pattern:
the split on `pat` has more than one piece exactly when `pat` occurs. -/
def jsIncludes (s pat : String) : Bool :=
  (jsSplitOn s pat).length != 1

/-- The `path.extname(filename).toLowerCase()`: the final `.`-suffix of the last
path segment (including the dot), lower-cased; empty when the segment has no
dot or starts with its only dot. -/
def extnameLower (filename : String) : String :=
  let base := (jsSplitOn filename "/").getLastD filename
  let pieces := jsSplitOn base "."
  if pieces.length ≤ 1 then ""
  else if pieces.head? = some "" ∧ pieces.length = 2 then ""
  else "." ++ strToLower (pieces.getLastD "")

/-- The `path.basename(filename, extname(filename))`: last path segment with the
extension removed. -/
def basenameNoExt (filename : String) : String :=
  let base := (jsSplitOn filename "/").getLastD filename
  let ext := extnameLower filename
  if ext ≠ "" ∧ ext.data.length ≤ base.data.length then
    String.mk (base.data.take (base.data.length - ext.data.length))
  else base

/-- The `pluginName.replace` mapping dash and underscore to a dot. -/
def jsDashUnderscoreToDot (s : String) : String :=
  String.mk (s.data.map fun ch => if ch = '-' ∨ ch = '_' then '.' else ch)

/-- Strict lexicographic order on character lists (kernel-reducible,
agreeing with the codepoint order on strings). -/
def charListLt : List Char → List Char → Bool
  | [], [] => false
  | [], _ :: _ => true
  | _ :: _, [] => false
  | a :: as, b :: bs =>
    if a < b then true else if b < a then false else charListLt as bs

/-- Strict lexicographic order on strings. -/
def strLtB (a b : String) : Bool :=
  charListLt a.data b.data

/-- Lexicographic `≤` on strings (the canonical filename order). -/
def strLeB (a b : String) : Bool :=
  ! strLtB b a

/-- Insertion of `x` into a list, before the first element `y` with `le x y`. -/
def insertLe (le : α → α → Bool) (x : α) : List α → List α
  | [] => [x]
  | y :: ys => if le x y then x :: y :: ys else y :: insertLe le x ys

/-- Insertion sort; used to express the canonical (filename-sorted) order. -/
def sortLe (le : α → α → Bool) : List α → List α
  | [] => []
  | x :: xs => insertLe le x (sortLe le xs)

namespace Build

/-! ## Data model of `tools/build/types.ts` -/

/-- The `OptimizationConfig` of `tools/build/types.ts`. -/
structure OptimizationConfig where
  compression : String
  treeshaking : Bool
  codesplitting : Bool
  wasmOptimization : Bool
  minification : Bool
deriving Repr, DecidableEq

/-- The `CacheConfig` of `tools/build/types.ts` (durations in seconds). -/
structure CacheConfig where
  staticAssets : Nat
  manifests : Nat
  wasm : Nat
  plugins : Nat
deriving Repr, DecidableEq

/-- The `AssetConfig` of `tools/build/types.ts`. -/
structure AssetConfig where
  integrity : Bool
  versioning : String
  caching : CacheConfig
  baseUrl : Option String := none
deriving Repr, DecidableEq

/-- The `CDNBuildConfig` of `tools/build/types.ts` (the optional `deployment`
sub-record is unused by the manifest plugin and elided). -/
structure CDNBuildConfig where
  target : String
  optimization : OptimizationConfig
  assets : AssetConfig
deriving Repr, DecidableEq

/-- The `AssetInfo` of `tools/build/types.ts`. -/
structure AssetInfo where
  filename : String
  size : Nat
  compressedSize : Nat
  hash : String
  mimeType : String
  cacheDuration : Nat
  lastModified : String
deriving Repr, DecidableEq

/-- The `PluginAssetInfo extends AssetInfo` of `tools/build/types.ts`. -/
structure PluginAssetInfo extends AssetInfo where
  id : String
  name : String
  version : String
  category : String
  dependencies : List String
  entry : String
  exports : List String
deriving Repr, DecidableEq

/-- The `WasmAssetInfo extends AssetInfo` of `tools/build/types.ts`. -/
structure WasmAssetInfo extends AssetInfo where
  streamingCompilation : Bool
  memoryRequirement : Nat
  crossOriginIsolation : Bool
deriving Repr, DecidableEq

/-- The `BrowserCompatibility` of `tools/build/types.ts`. -/
structure BrowserCompatibility where
  chrome : String
  firefox : String
  safari : String
  edge : String
  webAssembly : Bool
  es2020 : Bool
deriving Repr, DecidableEq

/-- The `BuildMetadata` of `tools/build/types.ts`; `compressionRatio`
(a JS float quotient) is modelled as the exact rational. -/
structure BuildMetadata where
  buildDate : String
  buildId : String
  nodeVersion : String
  gitCommit : Option String
  gitBranch : Option String
  target : String
  optimization : OptimizationConfig
  totalBundleSize : Nat
  compressionRatio : Rat
deriving Repr, DecidableEq

/-- The `assets` field of `AssetManifest`.  The TypeScript type declares
`core` / `orchestration` / `pluginFramework` as `AssetInfo`, but on an empty
asset map `assetsList[0]` is `undefined`, so the faithful embedding is
`Option AssetInfo`. -/
structure ManifestAssets where
  core : Option AssetInfo
  orchestration : Option AssetInfo
  pluginFramework : Option AssetInfo
  plugins : List PluginAssetInfo
  wasm : List WasmAssetInfo
deriving Repr, DecidableEq

/-- The `AssetManifest` of `tools/build/types.ts`; `integrity` is a string-keyed
record, modelled as an insertion-ordered association list. -/
structure AssetManifest where
  version : String
  timestamp : String
  buildHash : String
  assets : ManifestAssets
  integrity : List (String × String)
  metadata : BuildMetadata
  compatibility : BrowserCompatibility
deriving Repr, DecidableEq

/-- The `SIZE_LIMITS` of `tools/build/types.ts`, in `Object.entries` order
(`1.5 * 1024 * 1024 = 1572864`). -/
def SIZE_LIMITS : List (String × Nat) :=
  [("core.min.js", 2 * 1024 * 1024),
   ("orchestration.min.js", 800 * 1024),
   ("plugin-framework.min.js", 500 * 1024),
   ("wasm", 1572864),
   ("plugin", 500 * 1024),
   ("total", 5 * 1024 * 1024)]

/-- The nondeterministic per-run inputs of the manifest plugin: wall-clock
time (`new Date().toISOString()`), `process.env.npm_package_version`,
`process.version`, and the git probes. -/
structure RunEnv where
  now : String
  npmPackageVersion : Option String
  nodeVersion : String
  gitCommit : Option String
  gitBranch : Option String
deriving Repr, DecidableEq

/-- External `node:crypto` / `Buffer` primitives, as deterministic function
parameters: `sha384hex content` is
`createHash("sha384").update(content).digest("hex")`, `sha256hex s` is
`createHash("sha256").update(s).digest("hex")`, and `hexToBase64 h` is
`Buffer.from(h, "hex").toString("base64")`. -/
structure Crypto where
  sha384hex : List Nat → String
  sha256hex : String → String
  hexToBase64 : String → String

/-! ## `tools/build/manifest-plugin.ts` -/

/-- The `getMimeType` of `manifest-plugin.ts`. -/
def getMimeType (filename : String) : String :=
  let ext := extnameLower filename
  if ext = ".js" then "application/javascript"
  else if ext = ".wasm" then "application/wasm"
  else if ext = ".json" then "application/json"
  else if ext = ".map" then "application/json"
  else if ext = ".css" then "text/css"
  else if ext = ".html" then "text/html"
  else "application/octet-stream"

/-- The `getCacheDuration` of `manifest-plugin.ts`. -/
def getCacheDuration (filename : String) (config : CDNBuildConfig) : Nat :=
  if jsIncludes filename "manifest" then config.assets.caching.manifests
  else if jsEndsWith filename ".wasm" then config.assets.caching.wasm
  else if jsIncludes filename "plugin" then config.assets.caching.plugins
  else config.assets.caching.staticAssets

/-- The `createAssetInfo` of `manifest-plugin.ts`.  `Math.floor(size * 0.7)` is
modelled as `size * 7 / 10` (exact for the sizes of interest; the JS value is
the floor of a binary-float product). -/
def createAssetInfo (c : Crypto) (run : RunEnv) (filename : String)
    (source : List Nat) (config : CDNBuildConfig) : AssetInfo :=
  let size := source.length
  { filename := filename
    size := size
    compressedSize := size * 7 / 10
    hash := c.sha384hex source
    mimeType := getMimeType filename
    cacheDuration := getCacheDuration filename config
    lastModified := run.now }

/-- The `estimateWasmMemory` of `manifest-plugin.ts`. -/
def estimateWasmMemory (source : List Nat) : Nat :=
  max (source.length * 2) (1024 * 1024)

/-- The `createWasmAssetInfo` of `manifest-plugin.ts`. -/
def createWasmAssetInfo (c : Crypto) (run : RunEnv) (filename : String)
    (source : List Nat) (config : CDNBuildConfig) : WasmAssetInfo :=
  { toAssetInfo := createAssetInfo c run filename source config
    streamingCompilation := config.optimization.wasmOptimization
    memoryRequirement := estimateWasmMemory source
    crossOriginIsolation := true }

/-- The `createPluginAssetInfo` of `manifest-plugin.ts` (its `| null` return type
is never exercised: the function always returns an object). -/
def createPluginAssetInfo (c : Crypto) (run : RunEnv) (filename : String)
    (source : List Nat) (config : CDNBuildConfig) : PluginAssetInfo :=
  let pluginName := basenameNoExt filename
  { toAssetInfo := createAssetInfo c run filename source config
    id := jsDashUnderscoreToDot pluginName
    name := pluginName
    version := "1.0.0"
    category := "utility"
    dependencies := []
    entry := filename
    exports := ["default"] }

/-- The `generateIntegrityMap` of `manifest-plugin.ts` (its `wasm` and `plugins`
parameters are unused by the implementation). -/
def generateIntegrityMap (c : Crypto) (assets : List (String × AssetInfo))
    (_wasm : List WasmAssetInfo) (_plugins : List PluginAssetInfo) :
    List (String × String) :=
  assets.map fun p => (p.1, "sha384-" ++ c.hexToBase64 p.2.hash)

/-- The `generateManifest` of `manifest-plugin.ts`.  `assets` is the insertion
ordered `Map<string, AssetInfo>`; `Array.from(assets.values())` is
`assets.map (·.2)`. -/
def generateManifest (c : Crypto) (run : RunEnv)
    (assets : List (String × AssetInfo)) (plugins : List PluginAssetInfo)
    (wasm : List WasmAssetInfo) (config : CDNBuildConfig) : AssetManifest :=
  let buildHash :=
    strTake (c.sha256hex (String.join ((assets.map (·.2)).map (·.hash)))) 8
  let totalBundleSize := ((assets.map (·.2)).map (·.size)).sum
  let totalCompressedSize := ((assets.map (·.2)).map (·.compressedSize)).sum
  let assetsList := assets.map (·.2)
  let coreAsset :=
    (assetsList.find? fun a => jsIncludes a.filename "core").orElse
      fun _ => assetsList.head?
  let orchestrationAsset :=
    (assetsList.find? fun a => jsIncludes a.filename "orchestration").orElse
      fun _ => coreAsset
  let pluginFrameworkAsset :=
    (assetsList.find? fun a => jsIncludes a.filename "plugin-framework").orElse
      fun _ => coreAsset
  { version := run.npmPackageVersion.getD "1.0.0"
    timestamp := run.now
    buildHash := buildHash
    assets :=
      { core := coreAsset
        orchestration := orchestrationAsset
        pluginFramework := pluginFrameworkAsset
        plugins := plugins
        wasm := wasm }
    integrity := generateIntegrityMap c assets wasm plugins
    metadata :=
      { buildDate := run.now
        buildId := buildHash
        nodeVersion := run.nodeVersion
        gitCommit := run.gitCommit
        gitBranch := run.gitBranch
        target := config.target
        optimization := config.optimization
        totalBundleSize := totalBundleSize
        compressionRatio := (totalCompressedSize : Rat) / (totalBundleSize : Rat) }
    compatibility :=
      { chrome := "90+"
        firefox := "88+"
        safari := "14+"
        edge := "90+"
        webAssembly := true
        es2020 := true } }

/-- The `validateBundleSizes` of `manifest-plugin.ts`: the returned list is the
`issues` array that is passed to `console.warn` (the function never throws
and never aborts the build). -/
def validateBundleSizes (assets : List (String × AssetInfo)) : List String :=
  let perFile :=
    assets.flatMap fun p =>
      SIZE_LIMITS.filterMap fun q =>
        let filename := p.1
        let sz := p.2.size
        let limit := q.2
        if jsIncludes filename q.1 ∧ sz > limit then
          some s!"{filename} exceeds size limit: {sz} > {limit} bytes"
        else none
  let totalSize := ((assets.map (·.2)).map (·.size)).sum
  let totalLimit := 5 * 1024 * 1024
  perFile ++
    (if totalSize > totalLimit then
      [s!"Total bundle size exceeds limit: {totalSize} > {totalLimit} bytes"]
    else [])

/-- A Rollup bundle entry as consumed by the `generateBundle` hook:
either an emitted asset (`asset.source`, string or `Uint8Array`, both
modelled as bytes) or a chunk (`asset.code`). -/
inductive BundleItem
  | asset (source : List Nat)
  | chunk (code : List Nat)
deriving Repr, DecidableEq

/-- JS `Map.set`: replace in place when the key exists, append otherwise. -/
def mapSet (m : List (String × AssetInfo)) (k : String) (v : AssetInfo) :
    List (String × AssetInfo) :=
  if m.any (·.1 = k) then
    m.map fun p => if p.1 = k then (k, v) else p
  else m ++ [(k, v)]

/-- The three accumulators of the plugin closure (`assetMap`,
`pluginAssets`, `wasmAssets`). -/
structure BundleState where
  assetMap : List (String × AssetInfo) := []
  pluginAssets : List PluginAssetInfo := []
  wasmAssets : List WasmAssetInfo := []
deriving Repr, DecidableEq

/-- One iteration of the `Object.entries(bundle).forEach` loop of the
`generateBundle` hook of `manifest-plugin.ts`. -/
def processEntry (c : Crypto) (run : RunEnv) (config : CDNBuildConfig)
    (st : BundleState) (entry : String × BundleItem) : BundleState :=
  match entry.2 with
  | .asset source =>
    let assetInfo := createAssetInfo c run entry.1 source config
    let st := { st with assetMap := mapSet st.assetMap entry.1 assetInfo }
    if jsEndsWith entry.1 ".wasm" then
      { st with wasmAssets :=
          st.wasmAssets ++ [createWasmAssetInfo c run entry.1 source config] }
    else if jsIncludes entry.1 "plugin" then
      { st with pluginAssets :=
          st.pluginAssets ++ [createPluginAssetInfo c run entry.1 source config] }
    else st
  | .chunk code =>
    let assetInfo := createAssetInfo c run entry.1 code config
    { st with assetMap := mapSet st.assetMap entry.1 assetInfo }

/-- Result of one run of the `generateBundle` hook: the accumulated state,
the generated manifest, the names of the files emitted through `emitFile`
(contents elided; the manifest body is `manifest` itself), and the
bundle-size warnings. -/
structure BundleOutput where
  state : BundleState
  manifest : AssetManifest
  emittedFiles : List String
  warnings : List String
deriving Repr, DecidableEq

/-- The full `generateBundle` hook of `manifest-plugin.ts`: process every
bundle entry, generate and emit the manifest, emit the provider-specific
configuration files (`generateProviderConfigs`), then run
`validateBundleSizes` (whose issues are only warned about). -/
def generateBundleHook (c : Crypto) (run : RunEnv) (config : CDNBuildConfig)
    (bundle : List (String × BundleItem)) : BundleOutput :=
  let st := bundle.foldl (processEntry c run config) {}
  let manifest := generateManifest c run st.assetMap st.pluginAssets st.wasmAssets config
  let providerFiles :=
    (if config.target = "github-pages" then ["_config.yml", ".nojekyll"] else [])
      ++ ["_headers"]
  { state := st
    manifest := manifest
    emittedFiles := "manifest.json" :: providerFiles
    warnings := validateBundleSizes st.assetMap }

/-- The filenames reachable from `manifest.assets`, transitively across the
`core` / `orchestration` / `pluginFramework` / `plugins` / `wasm` entries. -/
def manifestAssetFilenames (m : AssetManifest) : List String :=
  (m.assets.core.map (·.filename)).toList ++
    (m.assets.orchestration.map (·.filename)).toList ++
    (m.assets.pluginFramework.map (·.filename)).toList ++
    m.assets.plugins.map (·.filename) ++
    m.assets.wasm.map (·.filename)

end Build

namespace Deploy

/-! ## Data model of `tools/deployment/types.ts` and the orchestrator
(`tools/deployment/deploy.ts`, provided as an unnamed source file) -/

/-- A JS optional string is "falsy" when absent or empty
(`!config.repository`). -/
def jsFalsyStr (o : Option String) : Bool :=
  o.getD "" = ""

/-- The `AssetFile` of `tools/deployment/types.ts` (the optional `compression`
field is never set by the orchestrator and is elided). -/
structure AssetFile where
  path : String
  content : List Nat
  mimeType : String
  size : Nat
  hash : String
deriving Repr, DecidableEq

/-- The `DeploymentMetadata` of `tools/deployment/types.ts`. -/
structure DeploymentMetadata where
  deploymentId : String
  timestamp : String
  target : String
  environment : String
deriving Repr, DecidableEq

/-- The `AssetBundle` of `tools/deployment/types.ts`; the orchestrator stores
either `{}` or the parsed `manifest.json` in `manifest`, modelled as the raw
bytes of the file when present (JSON decoding is irrelevant to the claims;
parse failures of an existing `manifest.json` are not modelled). -/
structure AssetBundle where
  files : List AssetFile
  manifest : Option (List Nat)
  totalSize : Nat
  metadata : DeploymentMetadata
deriving Repr, DecidableEq

/-- The `DeploymentResult` of `tools/deployment/types.ts` (optional `metrics`
and `previewUrl` elided: the orchestrator itself never sets them). -/
structure DeploymentResult where
  success : Bool
  deploymentId : String
  url : String
  logs : List String
  error : Option String := none
deriving Repr, DecidableEq

/-- The `DeploymentConfig` of `tools/deployment/types.ts`, restricted to the
fields the orchestrator reads or writes (the constant `headers` default and
the unused optional fields are elided). -/
structure DeploymentConfig where
  target : String
  repository : Option String
  branch : Option String
  customDomain : Option String
  environment : String
  baseUrl : Option String
  outputDir : Option String
deriving Repr, DecidableEq

/-- A parsed JSON configuration file as spread over the config
(`{ ...config, ...fileConfig }`): present keys override. -/
structure FileConfig where
  target : Option String := none
  repository : Option String := none
  branch : Option String := none
  customDomain : Option String := none
  environment : Option String := none
  baseUrl : Option String := none
  outputDir : Option String := none
deriving Repr, DecidableEq

/-- The `DeploymentOptions` of the orchestrator (`deploy.ts`).  Optional JS
booleans that are only truthiness-tested (`dryRun`, `force`) are `Bool`;
`validate` is tested with `!== false` and stays optional. -/
structure DeploymentOptions where
  target : Option String := none
  environment : Option String := none
  dryRun : Bool := false
  validate : Option Bool := none
  force : Bool := false
  configFile : Option String := none
  assetsDir : Option String := none
  baseUrl : Option String := none
  repository : Option String := none
  branch : Option String := none
  customDomain : Option String := none
deriving Repr, DecidableEq

/-- A directory tree as seen by `readdirSync`/`statSync`/`readFileSync`:
entries in `readdirSync` order; for a regular file, `stats.size` is the byte
length of its content (a consistent filesystem snapshot). -/
inductive FSEntry
  | file (name : String) (content : List Nat)
  | dir (name : String) (entries : List FSEntry)

/-- The `path.join(relativePath, entry)` for the posix paths the scan produces
(the scan starts from the relative path `""`). -/
def joinPath (rel name : String) : String :=
  if rel = "" then name else rel ++ "/" ++ name

/-- The private orchestrator `getMimeType` (`deploy.ts`):
the last dot-separated piece of the filename, lower-cased, against a fixed table. -/
def getMimeType (filename : String) : String :=
  let ext := strToLower ((jsSplitOn filename ".").getLastD "")
  if ext = "js" then "application/javascript"
  else if ext = "wasm" then "application/wasm"
  else if ext = "json" then "application/json"
  else if ext = "map" then "application/json"
  else if ext = "css" then "text/css"
  else if ext = "html" then "text/html"
  else if ext = "txt" then "text/plain"
  else if ext = "md" then "text/markdown"
  else "application/octet-stream"

mutual

/-- One entry of the recursive `scanDirectory` loop of
`prepareAssetBundle`: a file contributes one `AssetFile` and its size to the
running total; a directory is scanned recursively. -/
def scanEntry (sha384hex : List Nat → String) (rel : String) :
    FSEntry → List AssetFile × Nat
  | .file name content =>
    ([{ path := joinPath rel name
        content := content
        mimeType := getMimeType name
        size := content.length
        hash := sha384hex content }], content.length)
  | .dir name entries => scanEntries sha384hex (joinPath rel name) entries

/-- The `for (const entry of entries)` loop of `scanDirectory`: entries in
`readdirSync` order, accumulating files and `totalSize`. -/
def scanEntries (sha384hex : List Nat → String) (rel : String) :
    List FSEntry → List AssetFile × Nat
  | [] => ([], 0)
  | e :: es =>
    let r1 := scanEntry sha384hex rel e
    let r2 := scanEntries sha384hex rel es
    (r1.1 ++ r2.1, r1.2 + r2.2)

end

/-- The provider behaviour visible to the orchestrator during one run:
the outcome of `provider.testConnection()` and of
`provider.deploy(assets, config)`. -/
structure ProviderWorld where
  testConnectionResult : Bool
  deployResult : DeploymentResult
deriving Repr, DecidableEq

/-- The external world of one orchestrator invocation: the `sha384`
digest primitive, the filesystem (configuration files found and parsed at a
path; the directory tree found at an assets path; `none` = `existsSync`
false), the process environment, the generated deployment id and timestamp,
and the provider behaviour. -/
structure World where
  sha384hex : List Nat → String
  configFiles : String → Option FileConfig
  assetDirs : String → Option (List FSEntry)
  env : String → Option String
  deployId : String
  nowIso : String
  provider : ProviderWorld

/-- Calls that reach the deployment provider (plus the post-deploy
validator run, which never happens in a dry run either). -/
inductive ProviderCall
  | testConnection
  | deployCall
  | validatorRun
deriving Repr, DecidableEq

/-- The `loadConfiguration` of `deploy.ts`: defaults
(`DEFAULT_DEPLOYMENT_CONFIG` of `tools/deployment/types.ts`), then the
configuration file, then the CLI overrides, then the per-target
precondition check. -/
def loadConfiguration (w : World) (options : DeploymentOptions) :
    Except String DeploymentConfig :=
  let config : DeploymentConfig :=
    { target := options.target.getD "github-pages"
      repository := none
      branch := some "main"
      customDomain := none
      environment := options.environment.getD "production"
      baseUrl := none
      outputDir := some "cdn/dist" }
  let config :=
    match options.configFile with
    | none => config
    | some f =>
      match w.configFiles f with
      | none => config
      | some fc =>
        { target := fc.target.getD config.target
          repository := fc.repository <|> config.repository
          branch := fc.branch <|> config.branch
          customDomain := fc.customDomain <|> config.customDomain
          environment := fc.environment.getD config.environment
          baseUrl := fc.baseUrl <|> config.baseUrl
          outputDir := fc.outputDir <|> config.outputDir }
  let config :=
    match options.repository with
    | some r => { config with repository := some r }
    | none => config
  let config :=
    match options.branch with
    | some b => { config with branch := some b }
    | none => config
  let config :=
    match options.customDomain with
    | some d => { config with customDomain := some d }
    | none => config
  let config :=
    match options.baseUrl with
    | some u => { config with baseUrl := some u }
    | none => config
  if config.target = "github-pages" ∧ jsFalsyStr config.repository then
    .error "GitHub repository is required for GitHub Pages deployment"
  else .ok config

/-- The `prepareAssetBundle` of `deploy.ts`: missing assets directory is fatal;
otherwise scan the tree, load `manifest.json` when present, and build the
bundle. -/
def prepareAssetBundle (w : World) (assetsDir : String) :
    Except String AssetBundle :=
  match w.assetDirs assetsDir with
  | none => .error ("Assets directory not found: " ++ assetsDir)
  | some entries =>
    let scanned := scanEntries w.sha384hex "" entries
    let manifest := entries.findSome? fun e =>
      match e with
      | .file name content => if name = "manifest.json" then some content else none
      | .dir _ _ => none
    .ok { files := scanned.1
          manifest := manifest
          totalSize := scanned.2
          metadata :=
            { deploymentId := w.deployId
              timestamp := w.nowIso
              target := "unknown"
              environment := "production" } }

/-- The `getDeploymentProvider` of `deploy.ts`.  Constructing the
`GitHubPagesProvider` performs no network call; its options record is
returned as the provider value.  The other declared targets fail fast. -/
def getDeploymentProvider (w : World) (config : DeploymentConfig) :
    Except String (String × Option String) :=
  if config.target = "github-pages" then
    .ok (config.repository.getD "", w.env "GITHUB_TOKEN")
  else if config.target = "cloudflare-pages" ∨ config.target = "netlify"
      ∨ config.target = "vercel" then
    .error ("Deployment target " ++ config.target ++ " is not yet implemented")
  else
    .error ("Unknown deployment target: " ++ config.target)

/-- The `CDNDeploymentOrchestrator.deploy` of `deploy.ts`, with an explicit log
of the calls that reach the provider (second component).  Thrown errors are
the `.error` case. -/
def deploy (w : World) (options : DeploymentOptions) :
    Except String DeploymentResult × List ProviderCall :=
  match loadConfiguration w options with
  | .error e => (.error e, [])
  | .ok config =>
    match prepareAssetBundle w (options.assetsDir.getD "cdn/dist") with
    | .error e => (.error e, [])
    | .ok _assets =>
      if options.dryRun then
        (.ok { success := true
               deploymentId := "dry-run"
               url := config.baseUrl.getD "https://example.com"
               logs := ["Dry run completed successfully"] }, [])
      else
        match getDeploymentProvider w config with
        | .error e => (.error e, [])
        | .ok _provider =>
          if w.provider.testConnectionResult = false then
            (.error "Failed to connect to deployment provider",
             [.testConnection])
          else
            let result := w.provider.deployResult
            if result.success = false then
              (.error (result.error.getD "Deployment failed"),
               [.testConnection, .deployCall])
            else if options.validate ≠ some false then
              (.ok result, [.testConnection, .deployCall, .validatorRun])
            else
              (.ok result, [.testConnection, .deployCall])

end Deploy

namespace Retry

/-! ## `BaseDeploymentProvider.withRetry`
(`tools/deployment/providers/base-provider.ts`, provided as an unnamed
source file)

The asynchronous operation is modelled by the outcomes of its successive
invocations: `op k` is what the `k`-th call of `operation()` (1-based)
settles to.  The trace records the thrown-or-returned outcome, the number of
invocations actually performed, and every backoff delay that was awaited, in
order.  With `maxRetries = 0` the loop body never runs and the function
throws the undefined `lastError!`, modelled as `.error none`. -/

/-- The observable trace of one `withRetry` run. -/
structure RetryTrace (E T : Type) where
  outcome : Except (Option E) T
  calls : Nat
  delays : List Nat

/-- The `Math.min(1000 * Math.pow(2, attempt - 1), 10000)`. -/
def delayBeforeRetry (attempt : Nat) : Nat :=
  min (1000 * 2 ^ (attempt - 1)) 10000

/-- The `for (let attempt = 1; attempt <= maxRetries; attempt++)` loop,
by recursion on the number of remaining attempts: at fuel `r + 1` the
current attempt is `maxRetries - r`. -/
def withRetryGo (op : Nat → Except E T) (maxRetries : Nat) :
    Nat → Option E → RetryTrace E T
  | 0, last => ⟨.error last, 0, []⟩
  | r + 1, _last =>
    let attempt := maxRetries - r
    match op attempt with
    | .ok v => ⟨.ok v, 1, []⟩
    | .error e =>
      let rest := withRetryGo op maxRetries r (some e)
      let ds := if attempt < maxRetries then [delayBeforeRetry attempt] else []
      ⟨rest.outcome, rest.calls + 1, ds ++ rest.delays⟩

/-- The `BaseDeploymentProvider.withRetry` of `base-provider.ts`. -/
def withRetry (op : Nat → Except E T) (maxRetries : Nat := 3) : RetryTrace E T :=
  withRetryGo op maxRetries maxRetries none

end Retry

namespace Validator

/-! ## `CDNDeploymentValidator` (`tools/deployment/validator.ts`)

Network effects are modelled by a `Network` value: `fetch` maps a method and
URL to either a response or a thrown network error (covering timeouts and
aborts), `fetchTime` gives the elapsed milliseconds of a fetch of a URL
(`Date.now()` differences), `manifestJson` / `duckdbJson` are the decoded
JSON bodies of the two `GET`-and-`.json()` sites (`none` = the body fails to
decode and `.json()` throws).  The `details` payloads of checks (type `any`)
are elided, and the interpolated `error.message` text of a thrown fetch is
rendered as the literal `fetch failed`; neither is load-bearing for any
claim, which depend on check names and statuses. -/

/-- Check status: passed, failed or warning. -/
inductive Status
  | passed
  | warning
  | failed
deriving Repr, DecidableEq

/-- The `ValidationCheck` of `tools/deployment/types.ts` (`details` elided). -/
structure ValidationCheck where
  name : String
  status : Status
  message : String
deriving Repr, DecidableEq

/-- The `SecurityCheck` of `tools/deployment/types.ts`. -/
structure SecurityCheck where
  name : String
  status : Status
  description : String
  recommendation : Option String := none
deriving Repr, DecidableEq

/-- The `PerformanceMetrics` of `tools/deployment/types.ts`; `wasmLoadTime`
uses the `-1` sentinel, hence `Int`. -/
structure PerformanceMetrics where
  loadTime : Int
  wasmLoadTime : Int
  pluginLoadTimes : List (String × Nat)
  totalSize : Nat
  compressionRatio : Rat
deriving Repr, DecidableEq

/-- The `ValidationResult` of `tools/deployment/types.ts` (the validator always
produces a `security` array, possibly empty). -/
structure ValidationResult where
  success : Bool
  checks : List ValidationCheck
  performance : Option PerformanceMetrics
  security : List SecurityCheck
deriving Repr, DecidableEq

/-- HTTP method of a fetch site: `fetchWithTimeout` issues `HEAD`, the two
body reads issue a plain `GET`, the CORS probe issues `OPTIONS`. -/
inductive Method
  | head
  | get
  | options
deriving Repr, DecidableEq

/-- The fields of a `Response` the validator reads. -/
structure Response where
  ok : Bool
  status : Nat
  headers : List (String × String)
deriving Repr, DecidableEq

/-- The `response.headers.get name` (headers with non-empty values; a present
header is truthy). -/
def Response.header (r : Response) (name : String) : Option String :=
  (r.headers.find? (·.1 = name)).map (·.2)

/-- A fetch either resolves to a response or throws. -/
inductive FetchResult
  | success (r : Response)
  | failure
deriving Repr, DecidableEq

/-- The decoded body of `GET <url>/manifest.json` as the validator reads it:
`Object.keys(manifest.assets || {})` and the keys of `manifest.integrity`. -/
structure ManifestJson where
  assetsKeys : List String
  integrityKeys : List String
deriving Repr, DecidableEq

/-- The decoded body of `GET <url>/duckdb-config.json` as the validator
reads it (`hasX` = the key is present/truthy). -/
structure DuckDBConfigJson where
  hybrid : Bool
  hasBaseUrl : Bool
  workers : Option (List String)
  hasAssets : Bool
  hasBundles : Bool
  fallbackStrategy : Option String
deriving Repr, DecidableEq

/-- The network behaviour of one validation run. -/
structure Network where
  fetch : Method → String → FetchResult
  manifestJson : Option ManifestJson
  duckdbJson : Option DuckDBConfigJson
  fetchTime : String → Nat

/-- The `ValidatorOptions` after the constructor merged the defaults. -/
structure ValidatorOptions where
  timeout : Nat := 30000
  retries : Nat := 3
  strictMode : Bool := false
  skipSlowTests : Bool := false
  customChecks : List ValidationCheck := []
deriving Repr, DecidableEq

/-- The the `assetPath.replace` sanitizer (non-alphanumerics to dashes). -/
def jsSanitizeName (s : String) : String :=
  String.mk (s.data.map fun ch => if ch.isAlphanum then ch else '-')

/-- JS single replace of a dot by a dash: only the first occurrence is replaced. -/
def jsReplaceFirstDot (s : String) : String :=
  match jsSplitOn s "." with
  | [] => s
  | [x] => x
  | x :: rest => x ++ "-" ++ String.intercalate "." rest

/-- The `checkUrlAccessible` of `validator.ts`. -/
def checkUrlAccessible (net : Network) (u : String) (name : String) :
    ValidationCheck :=
  match net.fetch .head u with
  | .success r =>
    let st := r.status
    { name := "connectivity-" ++ name
      status := if r.ok then .passed else .failed
      message :=
        if r.ok then name ++ " is accessible" else s!"{name} returned {st}" }
  | .failure =>
    { name := "connectivity-" ++ name
      status := .failed
      message := "Failed to access " ++ name ++ ": fetch failed" }

/-- The `checkCORSHeaders` of `validator.ts` (a plain `fetch` with method
`OPTIONS`). -/
def checkCORSHeaders (net : Network) (url : String) : ValidationCheck :=
  match net.fetch .options url with
  | .success r =>
    { name := "cors-headers"
      status :=
        if (r.header "Access-Control-Allow-Origin").isSome then .passed
        else .warning
      message :=
        if (r.header "Access-Control-Allow-Origin").isSome then
          "CORS headers are configured"
        else "CORS headers not found - may cause cross-origin issues" }
  | .failure =>
    { name := "cors-headers"
      status := .failed
      message := "CORS validation failed: fetch failed" }

/-- The `checkCacheHeaders` of `validator.ts`. -/
def checkCacheHeaders (net : Network) (url : String) : ValidationCheck :=
  match net.fetch .head url with
  | .success r =>
    { name := "cache-headers"
      status := if (r.header "Cache-Control").isSome then .passed else .warning
      message :=
        if (r.header "Cache-Control").isSome then "Cache headers are configured"
        else "Cache headers not found - performance may be impacted" }
  | .failure =>
    { name := "cache-headers"
      status := .failed
      message := "Cache header validation failed: fetch failed" }

/-- The `runConnectivityChecks` of `validator.ts`. -/
def runConnectivityChecks (net : Network) (url : String) :
    List ValidationCheck :=
  [checkUrlAccessible net url "main-url",
   checkUrlAccessible net (url ++ "/manifest.json") "manifest",
   checkCORSHeaders net url,
   checkCacheHeaders net url]

/-- The `fetchManifest` of `validator.ts`: `HEAD` probe, then `GET` + `.json()`;
any failure throws into the catch of the caller. -/
def fetchManifest (net : Network) (url : String) : Except Unit ManifestJson :=
  match net.fetch .head (url ++ "/manifest.json") with
  | .failure => .error ()
  | .success r =>
    if ¬ r.ok then .error ()
    else
      match net.fetch .get (url ++ "/manifest.json") with
      | .failure => .error ()
      | .success _ =>
        match net.manifestJson with
        | none => .error ()
        | some m => .ok m

/-- The `validateAsset` of `validator.ts`. -/
def validateAsset (net : Network) (url : String) (assetPath : String) :
    ValidationCheck :=
  let nm := "asset-" ++ jsSanitizeName assetPath
  match net.fetch .head (url ++ "/" ++ assetPath) with
  | .success r =>
    { name := nm
      status := if r.ok then .passed else .failed
      message :=
        if r.ok then "Asset " ++ assetPath ++ " is accessible"
        else "Asset " ++ assetPath ++ " not accessible" }
  | .failure =>
    { name := nm
      status := .failed
      message := "Asset " ++ assetPath ++ " validation failed: fetch failed" }

/-- The `validateAssetIntegrity` of `validator.ts` (no network access: it only
inspects the already-fetched manifest). -/
def validateAssetIntegrity (m : ManifestJson) : ValidationCheck :=
  if m.integrityKeys.length = 0 then
    { name := "asset-integrity-hashes"
      status := .warning
      message := "No integrity hashes found in manifest" }
  else
    let n := m.integrityKeys.length
    { name := "asset-integrity-hashes"
      status := .passed
      message := s!"Integrity hashes available for {n} assets" }

/-- The `runAssetValidation` of `validator.ts`: only `fetchManifest` can throw
into the catch of the group; every later step handles its own errors. -/
def runAssetValidation (net : Network) (url : String) :
    List ValidationCheck :=
  match fetchManifest net url with
  | .error _ =>
    [{ name := "asset-integrity"
       status := .failed
       message := "Asset validation failed: fetch failed" }]
  | .ok m =>
    ({ name := "asset-integrity"
       status := .passed
       message := "Asset manifest is valid and accessible" } : ValidationCheck)
      :: (["core.min.js", "orchestration.min.js", "plugin-framework.min.js"].map
            (validateAsset net url))
      ++ [validateAssetIntegrity m]

/-- The `for (const wasmUrl of wasmUrls)` loop of `runWasmValidation`: a
thrown fetch or a non-ok response moves on to the next URL; the first ok
response produces the MIME check and the streaming-headers check and breaks;
an exhausted list yields the not-found warning.  (`wasmFound` is true
exactly when the loop broke.) -/
def wasmLoop (net : Network) : List String → List ValidationCheck
  | [] =>
    [{ name := "wasm-loading"
       status := .warning
       message := "No WASM files found at expected locations" }]
  | u :: rest =>
    match net.fetch .head u with
    | .failure => wasmLoop net rest
    | .success r =>
      if r.ok then
        let contentType := r.header "Content-Type"
        let correctMime := contentType = some "application/wasm"
        let shown := contentType.getD "null"
        let coep := r.header "Cross-Origin-Embedder-Policy"
        let coop := r.header "Cross-Origin-Opener-Policy"
        let both := coep.isSome ∧ coop.isSome
        [{ name := "wasm-loading"
           status := if correctMime then .passed else .warning
           message :=
             if correctMime then "WASM file accessible with correct MIME type"
             else s!"WASM file accessible but incorrect MIME type: {shown}" },
         { name := "wasm-streaming-headers"
           status := if both then .passed else .warning
           message :=
             if both then "WASM streaming compilation headers are configured"
             else "Missing headers for WASM streaming compilation" }]
      else wasmLoop net rest

/-- The `runWasmValidation` of `validator.ts` (the outer `catch` is
unreachable: every fetch error is absorbed by the per-URL `try`). -/
def runWasmValidation (net : Network) (url : String) : List ValidationCheck :=
  wasmLoop net
    [url ++ "/assets/dataprism-core.wasm", url ++ "/assets/dataprism_core_bg.wasm"]

/-- The four DuckDB worker asset paths probed by `runDuckDBValidation`. -/
def duckdbAssets : List String :=
  ["assets/duckdb-browser-mvp.worker.js",
   "assets/duckdb-browser-eh.worker.js",
   "assets/duckdb-browser-coi.worker.js",
   "assets/duckdb-browser-coi.pthread.worker.js"]

/-- The the `asset.split-pop-replace` name computation of `runDuckDBValidation`. -/
def duckdbWorkerName (asset : String) : String :=
  jsReplaceFirstDot ((jsSplitOn asset "/").getLastD "")

/-- The worker-probing loop of `runDuckDBValidation`: an ok response pushes
a passed `duckdb-asset-*` check and counts the worker, a non-ok response
pushes nothing, a thrown fetch pushes a `duckdb-worker-*` warning. -/
def duckdbWorkerLoop (net : Network) (url : String) :
    List String → List ValidationCheck × Nat
  | [] => ([], 0)
  | asset :: rest =>
    let acc := duckdbWorkerLoop net url rest
    match net.fetch .head (url ++ "/" ++ asset) with
    | .success r =>
      if r.ok then
        (({ name := "duckdb-asset-" ++ duckdbWorkerName asset
            status := .passed
            message := "DuckDB asset " ++ asset ++ " is accessible" } :
            ValidationCheck) :: acc.1,
         acc.2 + 1)
      else acc
    | .failure =>
      (({ name := "duckdb-worker-" ++ duckdbWorkerName asset
          status := .warning
          message :=
            "DuckDB worker " ++ asset ++
              " not accessible - will use JSDelivr fallback" } :
          ValidationCheck) :: acc.1,
       acc.2)

/-- The `duckdb-hybrid-deployment` assessment check of
`runDuckDBValidation`. -/
def duckdbAssessment (foundAssets total : Nat) : ValidationCheck :=
  { name := "duckdb-hybrid-deployment"
    status := if foundAssets ≥ 3 then .passed else .warning
    message :=
      if foundAssets ≥ 3 then
        s!"Hybrid DuckDB deployment ready ({foundAssets}/{total} workers from CDN, WASM from JSDelivr)"
      else if foundAssets > 0 then
        s!"Partial DuckDB deployment ({foundAssets}/{total} workers) - using JSDelivr fallback"
      else "No DuckDB workers found - using full JSDelivr fallback" }

/-- The configuration-validation tail of `runDuckDBValidation` (only run
when the `duckdb-config.json` probe passed): `GET` + `.json()` inside its
own `try`, then the structure check and, in hybrid mode with workers, the
`duckdb-hybrid-config` check. -/
def duckdbConfigValidation (net : Network) (url : String) :
    List ValidationCheck :=
  match net.fetch .get (url ++ "/duckdb-config.json") with
  | .failure =>
    [{ name := "duckdb-config-validation"
       status := .failed
       message := "Failed to validate DuckDB configuration: fetch failed" }]
  | .success _ =>
    match net.duckdbJson with
    | none =>
      [{ name := "duckdb-config-validation"
         status := .failed
         message := "Failed to validate DuckDB configuration: fetch failed" }]
    | some cfg =>
      let isHybrid := cfg.hybrid
      let hasValidStructure :=
        cfg.hasBaseUrl ∧
          (if isHybrid then cfg.workers.isSome = true
           else cfg.hasAssets ∧ cfg.hasBundles)
      let mode := if isHybrid then "hybrid" else "full CDN"
      ({ name := "duckdb-config-validation"
         status := if hasValidStructure then .passed else .failed
         message :=
           if hasValidStructure then
             s!"DuckDB configuration is valid ({mode} mode)"
           else "DuckDB configuration has invalid structure" } :
         ValidationCheck)
        :: (match cfg.workers with
            | some ws =>
              if isHybrid then
                let n := ws.length
                let src := cfg.fallbackStrategy.getD "JSDelivr"
                [{ name := "duckdb-hybrid-config"
                   status := .passed
                   message :=
                     s!"Hybrid DuckDB configuration: {n} workers defined, WASM from {src}" }]
              else []
            | none => [])

/-- The `runDuckDBValidation` of `validator.ts` (outer `catch` unreachable:
all fetch errors are handled by inner handlers). -/
def runDuckDBValidation (net : Network) (url : String) :
    List ValidationCheck :=
  let configCheck := checkUrlAccessible net (url ++ "/duckdb-config.json") "duckdb-config"
  let ck1 : ValidationCheck :=
    { name := "duckdb-config"
      status := configCheck.status
      message :=
        if configCheck.status = .passed then "DuckDB configuration is accessible"
        else "DuckDB configuration missing - will fallback to JSDelivr" }
  let workers := duckdbWorkerLoop net url duckdbAssets
  let tail :=
    if configCheck.status = .passed then duckdbConfigValidation net url else []
  ck1 :: workers.1 ++ [duckdbAssessment workers.2 duckdbAssets.length] ++ tail

/-- The `runPluginValidation` of `validator.ts`: a thrown fetch of the plugin
framework hits the catch of the group (one failed check, the directory probe is
skipped); the directory probe handles its own errors. -/
def runPluginValidation (net : Network) (url : String) :
    List ValidationCheck :=
  match net.fetch .head (url ++ "/plugin-framework.min.js") with
  | .failure =>
    [{ name := "plugin-loading"
       status := .failed
       message := "Plugin validation failed: fetch failed" }]
  | .success r =>
    [{ name := "plugin-loading"
       status := if r.ok then .passed else .failed
       message :=
         if r.ok then "Plugin framework is accessible"
         else "Plugin framework not accessible" },
     (match net.fetch .head (url ++ "/plugins/") with
      | .success r2 =>
        { name := "plugin-directory"
          status := if r2.ok then .passed else .warning
          message :=
            if r2.ok then "Plugin directory is accessible"
            else "Plugin directory not found (may be expected)" }
      | .failure =>
        { name := "plugin-directory"
          status := .warning
          message := "Plugin directory not accessible (may be expected)" })]

/-- The `securityHeaders` table of `runSecurityValidation`: header name and
list of acceptable values (singleton = `===` comparison, several =
`Array.includes`). -/
def securityHeaders : List (String × List String) :=
  [("X-Content-Type-Options", ["nosniff"]),
   ("X-Frame-Options", ["DENY", "SAMEORIGIN"]),
   ("X-XSS-Protection", ["1; mode=block"]),
   ("Cross-Origin-Embedder-Policy", ["require-corp"]),
   ("Cross-Origin-Opener-Policy", ["same-origin"])]

/-- The `checkSensitiveInfoExposure` of `validator.ts`: the first sensitive file
that answers ok produces the failed check; thrown fetches and non-ok
responses move on; an exhausted list is a pass.  (The outer `catch` is
unreachable.) -/
def sensitiveLoop (net : Network) (url : String) :
    List String → SecurityCheck
  | [] =>
    { name := "sensitive-info-exposure"
      status := .passed
      description := "No sensitive files exposed" }
  | f :: rest =>
    match net.fetch .head (url ++ "/" ++ f) with
    | .success r =>
      if r.ok then
        { name := "sensitive-info-exposure"
          status := .failed
          description := "Sensitive file exposed: " ++ f
          recommendation := some ("Remove or block access to " ++ f) }
      else sensitiveLoop net url rest
    | .failure => sensitiveLoop net url rest

/-- The `checkSensitiveInfoExposure` of `validator.ts` over its fixed file
list. -/
def checkSensitiveInfoExposure (net : Network) (url : String) : SecurityCheck :=
  sensitiveLoop net url [".env", "config.json", "secrets.json", ".git/config"]

/-- The `runSecurityValidation` of `validator.ts`: a thrown fetch of the main
URL hits the catch of the group; otherwise the five header checks, the HTTPS
check and the sensitive-file probe. -/
def runSecurityValidation (net : Network) (url : String) :
    List SecurityCheck :=
  match net.fetch .head url with
  | .failure =>
    [{ name := "security-validation-error"
       status := .failed
       description := "Security validation failed: fetch failed"
       recommendation := some "Investigate and resolve security validation errors" }]
  | .success r =>
    (securityHeaders.map fun q =>
      let headerName := q.1
      let expected := q.2
      let actual := r.header headerName
      let isValid : Bool :=
        match expected with
        | [v] => actual == some v
        | vs =>
          match actual with
          | some a => vs.contains a
          | none => false
      { name := "security-header-" ++ strToLower headerName
        status :=
          if actual.isSome then (if isValid then .passed else .warning)
          else .failed
        description := headerName ++ " header validation"
        recommendation :=
          if actual.isSome then
            (if isValid then none
             else some ("Consider setting to: " ++ String.intercalate " or " expected))
          else some ("Add " ++ headerName ++ ": " ++ expected.headD "") })
      ++ [{ name := "https-enforcement"
            status := if jsStartsWith url "https://" then .passed else .failed
            description := "HTTPS protocol enforcement"
            recommendation :=
              if jsStartsWith url "https://" then none
              else some "Ensure CDN enforces HTTPS for all requests" },
          checkSensitiveInfoExposure net url]

/-- The `measurePerformance` of `validator.ts`: a thrown fetch of
`core.min.js` leaves the zero-initialised metrics; a thrown WASM fetch sets
the `-1` sentinel; `parseInt` of a well-formed `Content-Length` is
`String.toNat?`. -/
def measurePerformance (net : Network) (url : String) : PerformanceMetrics :=
  match net.fetch .head (url ++ "/core.min.js") with
  | .failure =>
    { loadTime := 0, wasmLoadTime := 0, pluginLoadTimes := []
      totalSize := 0, compressionRatio := 0 }
  | .success r =>
    let loadTime : Int := net.fetchTime (url ++ "/core.min.js")
    let sz : Nat :=
      match r.header "Content-Length" with
      | some cl => (parseNatDigits cl).getD 0
      | none => 0
    let wasmLoadTime : Int :=
      match net.fetch .head (url ++ "/assets/dataprism-core.wasm") with
      | .success _ => net.fetchTime (url ++ "/assets/dataprism-core.wasm")
      | .failure => -1
    let compressionRatio : Rat :=
      if sz > 0 then ((sz : Rat)) / ((sz : Rat) * (14 / 10 : Rat)) else 0
    { loadTime := loadTime
      wasmLoadTime := wasmLoadTime
      pluginLoadTimes := []
      totalSize := sz
      compressionRatio := compressionRatio }

/-- The `validatePerformanceMetrics` of `validator.ts`. -/
def validatePerformanceMetrics (p : PerformanceMetrics) :
    List ValidationCheck :=
  (if p.loadTime > 0 then
    let t := p.loadTime
    [{ name := "performance"
       status := if p.loadTime < 5000 then .passed else .warning
       message := s!"Core bundle load time: {t}ms" }]
  else []) ++
  (if p.wasmLoadTime > 0 then
    let t := p.wasmLoadTime
    [{ name := "performance-wasm-load"
       status := if p.wasmLoadTime < 2000 then .passed else .warning
       message := s!"WASM load time: {t}ms" }]
  else [])

/-- The `determineOverallSuccess` of `validator.ts`. -/
def determineOverallSuccess (strictMode : Bool)
    (checks : List ValidationCheck) (security : List SecurityCheck) : Bool :=
  if strictMode then
    checks.all (fun c => c.status == .passed) &&
      security.all (fun c => c.status == .passed)
  else
    checks.all (fun c => c.status != .failed) &&
      security.all (fun c => c.status != .failed)

/-- The `CDNDeploymentValidator.validateDeployment` of `validator.ts`.  The
outer `try` never reaches its `catch`: every group contains its own error
handling, so the embedding is the plain sequence of the seven groups. -/
def validateDeployment (opts : ValidatorOptions) (net : Network)
    (url : String) : ValidationResult :=
  let base :=
    runConnectivityChecks net url ++
      runAssetValidation net url ++
      runWasmValidation net url ++
      runDuckDBValidation net url ++
      runPluginValidation net url
  let security := runSecurityValidation net url
  let perf :=
    if ¬ opts.skipSlowTests then some (measurePerformance net url) else none
  let perfChecks :=
    match perf with
    | some p => validatePerformanceMetrics p
    | none => []
  let checks := base ++ perfChecks ++ opts.customChecks
  { success := determineOverallSuccess opts.strictMode checks security
    checks := checks
    performance := perf
    security := security }

/-! ### Concrete deployment scenario for the fault-isolation property

A fully healthy deployment at a fixed base URL: every probe answers HTTP
200 with all expected headers (sensitive files answer 404), both JSON
bodies decode, and every fetch takes 100ms.  `netExcept u` breaks exactly
one URL: every fetch of `u` (any method) throws. -/

/-- The base URL of the concrete validation scenario. -/
def demoBase : String := "https://cdn.example.com"

/-- The sensitive-file URLs, which a healthy deployment does not serve. -/
def sensitiveUrls (base : String) : List String :=
  [base ++ "/.env", base ++ "/config.json", base ++ "/secrets.json",
   base ++ "/.git/config"]

/-- Headers of a healthy response. -/
def healthyHeaders (u : String) : List (String × String) :=
  [("Access-Control-Allow-Origin", "*"),
   ("Cache-Control", "public, max-age=31536000"),
   ("Content-Type",
     if jsEndsWith u ".wasm" then "application/wasm" else "application/javascript"),
   ("Content-Length", "1000"),
   ("X-Content-Type-Options", "nosniff"),
   ("X-Frame-Options", "DENY"),
   ("X-XSS-Protection", "1; mode=block"),
   ("Cross-Origin-Embedder-Policy", "require-corp"),
   ("Cross-Origin-Opener-Policy", "same-origin")]

/-- The healthy network: every check of the validator passes against it. -/
def healthyNet (base : String) : Network :=
  { fetch := fun _ u =>
      if (sensitiveUrls base).contains u then
        .success { ok := false, status := 404, headers := [] }
      else .success { ok := true, status := 200, headers := healthyHeaders u }
    manifestJson := some ⟨["core", "orchestration", "pluginFramework"], ["core.min.js"]⟩
    duckdbJson := some ⟨true, true, some ["w1", "w2", "w3", "w4"], false, false,
      some "JSDelivr"⟩
    fetchTime := fun _ => 100 }

/-- The healthy network with exactly one broken URL: every fetch of `u`
throws; everything else behaves as in `healthyNet`. -/
def netExcept (base u : String) : Network :=
  { healthyNet base with
    fetch := fun m v => if v = u then .failure else (healthyNet base).fetch m v }

/-- Every URL the validator can probe in this scenario. -/
def probedUrls (base : String) : List String :=
  [base, base ++ "/manifest.json", base ++ "/core.min.js",
   base ++ "/orchestration.min.js", base ++ "/plugin-framework.min.js",
   base ++ "/assets/dataprism-core.wasm", base ++ "/assets/dataprism_core_bg.wasm",
   base ++ "/duckdb-config.json",
   base ++ "/assets/duckdb-browser-mvp.worker.js",
   base ++ "/assets/duckdb-browser-eh.worker.js",
   base ++ "/assets/duckdb-browser-coi.worker.js",
   base ++ "/assets/duckdb-browser-coi.pthread.worker.js",
   base ++ "/plugins/",
   base ++ "/.env", base ++ "/config.json", base ++ "/secrets.json",
   base ++ "/.git/config"]

/-- The names of all failed checks of a result, validation checks first,
then security checks. -/
def failedNames (r : ValidationResult) : List String :=
  (r.checks.filter (fun c => c.status == .failed)).map (·.name) ++
    (r.security.filter (fun c => c.status == .failed)).map (·.name)

/-- The checks that record `failed` when exactly the given URL throws: only
checks whose own fetch of that URL threw.  URLs probed by the soft checks
(the WASM probing loop, the DuckDB worker loop, the sensitive-file loop)
produce warnings or passes instead and map to `[]`. -/
def allowedFailed (base u : String) : List String :=
  if u = base then
    ["connectivity-main-url", "cors-headers", "cache-headers",
     "security-validation-error"]
  else if u = base ++ "/manifest.json" then
    ["connectivity-manifest", "asset-integrity"]
  else if u = base ++ "/core.min.js" then ["asset-core-min-js"]
  else if u = base ++ "/orchestration.min.js" then ["asset-orchestration-min-js"]
  else if u = base ++ "/plugin-framework.min.js" then
    ["asset-plugin-framework-min-js", "plugin-loading"]
  else if u = base ++ "/duckdb-config.json" then ["duckdb-config"]
  else []

/-- The check groups of the validator: the URLs each group fetches, paired with
check names that evidence the group produced an outcome. -/
def checkGroups (base : String) : List (List String × List String) :=
  [([base, base ++ "/manifest.json"], ["connectivity-main-url"]),
   ([base ++ "/manifest.json", base ++ "/core.min.js",
     base ++ "/orchestration.min.js", base ++ "/plugin-framework.min.js"],
    ["asset-integrity"]),
   ([base ++ "/assets/dataprism-core.wasm", base ++ "/assets/dataprism_core_bg.wasm"],
    ["wasm-loading"]),
   ([base ++ "/duckdb-config.json", base ++ "/assets/duckdb-browser-mvp.worker.js",
     base ++ "/assets/duckdb-browser-eh.worker.js",
     base ++ "/assets/duckdb-browser-coi.worker.js",
     base ++ "/assets/duckdb-browser-coi.pthread.worker.js"],
    ["duckdb-config"]),
   ([base ++ "/plugin-framework.min.js", base ++ "/plugins/"], ["plugin-loading"]),
   ([base, base ++ "/.env", base ++ "/config.json", base ++ "/secrets.json",
     base ++ "/.git/config"],
    ["security-validation-error", "security-header-x-content-type-options"]),
   ([base ++ "/core.min.js", base ++ "/assets/dataprism-core.wasm"],
    ["performance"])]

/-- The names of every recorded outcome of a result (checks and security). -/
def resultNames (r : ValidationResult) : List String :=
  r.checks.map (·.name) ++ r.security.map (·.name)

end Validator

/-! ## Concrete fixtures for witnesses and counterexamples -/

/-- The byte content of a bundle item (`asset.source` / `chunk.code`). -/
def Build.bundleContent : Build.BundleItem → List Nat
  | .asset s => s
  | .chunk s => s

/-- Concrete (dummy) crypto primitives: deterministic functions, which is
all the claims assume about the real digests. -/
def Build.demoCrypto : Build.Crypto :=
  { sha384hex := fun l => "s" ++ toString l.length
    sha256hex := fun s => "q" ++ s
    hexToBase64 := fun s => "b" ++ s }

/-- The default CDN build configuration (`DEFAULT_CDN_CONFIG` of
`tools/build/types.ts`). -/
def Build.demoConfig : Build.CDNBuildConfig :=
  { target := "github-pages"
    optimization :=
      { compression := "both", treeshaking := true, codesplitting := true
        wasmOptimization := true, minification := true }
    assets :=
      { integrity := true, versioning := "hash"
        caching :=
          { staticAssets := 31536000, manifests := 3600
            wasm := 31536000, plugins := 86400 } } }

/-- A first concrete run environment. -/
def Build.demoRun1 : Build.RunEnv :=
  { now := "2024-01-01T00:00:00.000Z", npmPackageVersion := some "1.0.0"
    nodeVersion := "v20", gitCommit := none, gitBranch := none }

/-- A second run environment, differing in every nondeterministic input. -/
def Build.demoRun2 : Build.RunEnv :=
  { now := "2025-06-30T12:00:00.000Z", npmPackageVersion := some "1.0.0"
    nodeVersion := "v22", gitCommit := some "c0ffee", gitBranch := some "main" }

/-- A concrete two-level asset directory for witnesses. -/
def Deploy.demoTree : List Deploy.FSEntry :=
  [.file "core.min.js" [104, 101],
   .dir "assets" [.file "app.wasm" [0, 97, 115, 109]]]

/-- A concrete orchestrator world: the demo tree at `cdn/dist`, no config
files, an empty process environment (in particular no `GITHUB_TOKEN`), and a
healthy provider. -/
def Deploy.demoWorld : Deploy.World :=
  { sha384hex := fun l => "h" ++ toString l.length
    configFiles := fun _ => none
    assetDirs := fun d => if d = "cdn/dist" then some Deploy.demoTree else none
    env := fun _ => none
    deployId := "deploy_1_abc"
    nowIso := "t"
    provider :=
      { testConnectionResult := true
        deployResult :=
          { success := true, deploymentId := "d", url := "u", logs := [] } } }

/-- The bundle the demo world scan produces. -/
def Deploy.demoBundle : Deploy.AssetBundle :=
  { files :=
      [{ path := "core.min.js", content := [104, 101]
         mimeType := "application/javascript", size := 2, hash := "h2" },
       { path := "assets/app.wasm", content := [0, 97, 115, 109]
         mimeType := "application/wasm", size := 4, hash := "h4" }]
    manifest := none
    totalSize := 6
    metadata :=
      { deploymentId := "deploy_1_abc", timestamp := "t"
        target := "unknown", environment := "production" } }

/-- The five-entry size table exactly as the C9 claim sentence states it
("core <= 2MB, plugin-framework <= 500KB, per-plugin <= 500KB, per-wasm <=
1.5MB, total <= 5MB"): a spec-side reference definition, to be compared
with the source table `SIZE_LIMITS` (which additionally caps
`orchestration.min.js` at 800KB). -/
def Build.claimSizeLimits : List (String × Nat) :=
  [("core", 2 * 1024 * 1024),
   ("plugin-framework", 500 * 1024),
   ("plugin", 500 * 1024),
   ("wasm", 1572864)]

/-- Bundle-size issues computed from the table of the claim, with the same
matching mechanism as `validateBundleSizes`: a spec-side reference
definition for the C9 comparison. -/
def Build.claimSizeIssues (assets : List (String × Build.AssetInfo)) :
    List String :=
  let perFile :=
    assets.flatMap fun p =>
      Build.claimSizeLimits.filterMap fun q =>
        let filename := p.1
        let sz := p.2.size
        let limit := q.2
        if jsIncludes filename q.1 ∧ sz > limit then
          some s!"{filename} exceeds size limit: {sz} > {limit} bytes"
        else none
  let totalSize := ((assets.map (·.2)).map (·.size)).sum
  let totalLimit := 5 * 1024 * 1024
  perFile ++
    (if totalSize > totalLimit then
      [s!"Total bundle size exceeds limit: {totalSize} > {totalLimit} bytes"]
    else [])

/-- The delays awaited for `count` consecutive failed attempts starting at
attempt `first`. -/
def Retry.delaysFrom (first : Nat) : Nat → List Nat
  | 0 => []
  | c + 1 => Retry.delayBeforeRetry first :: Retry.delaysFrom (first + 1) c

/-- The concrete retried operation of the C8 witness: attempts 1 and 2
fail, attempt 3 succeeds. -/
def Retry.demoOp : Nat → Except String Nat :=
  fun k => if k ≤ 2 then .error (toString k) else .ok 42

/-! ## Helper lemmas -/

namespace Build

theorem mapSet_keys (m : List (String × AssetInfo)) (k : String) (v : AssetInfo) :
    (mapSet m k v).map (·.1) =
      if m.any (·.1 = k) then m.map (·.1) else m.map (·.1) ++ [k] := by
  unfold mapSet
  by_cases h : m.any fun p => p.1 = k
  · rw [if_pos h, if_pos h, List.map_map]
    refine List.map_congr_left fun p _ => ?_
    by_cases hp1 : p.1 = k
    · simp [hp1]
    · simp [hp1]
  · rw [if_neg h, if_neg h]
    simp

theorem mem_keys_mapSet_self (m : List (String × AssetInfo)) (k : String)
    (v : AssetInfo) : k ∈ (mapSet m k v).map (·.1) := by
  rw [mapSet_keys]
  by_cases h : m.any fun p => p.1 = k
  · rw [if_pos h]
    rcases List.any_eq_true.mp h with ⟨p, hp, hpk⟩
    have hk : p.1 = k := of_decide_eq_true hpk
    exact hk ▸ List.mem_map_of_mem _ hp
  · rw [if_neg h]
    simp

theorem mem_keys_mapSet_of_mem (m : List (String × AssetInfo)) (k f : String)
    (v : AssetInfo) (hf : f ∈ m.map (·.1)) :
    f ∈ (mapSet m k v).map (·.1) := by
  rw [mapSet_keys]
  by_cases h : m.any fun p => p.1 = k
  · rw [if_pos h]; exact hf
  · rw [if_neg h]; exact List.mem_append_left _ hf

theorem mapSet_filename_inv (m : List (String × AssetInfo)) (k : String)
    (v : AssetInfo) (hv : v.filename = k)
    (h : ∀ p ∈ m, p.2.filename = p.1) :
    ∀ p ∈ mapSet m k v, p.2.filename = p.1 := by
  intro p hp
  unfold mapSet at hp
  by_cases hany : m.any fun q => q.1 = k
  · rw [if_pos hany] at hp
    rcases List.mem_map.mp hp with ⟨q, hq, hqe⟩
    by_cases hq1 : q.1 = k
    · rw [if_pos hq1] at hqe
      subst hqe
      exact hv
    · rw [if_neg hq1] at hqe
      subst hqe
      exact h q hq
  · rw [if_neg hany] at hp
    rcases List.mem_append.mp hp with hp | hp
    · exact h p hp
    · rcases List.mem_singleton.mp hp with rfl
      exact hv

/-- The invariant of the bundle-processing fold: every asset-map entry
carries its own key as `filename`, and every pushed WASM or plugin entry is
keyed in the asset map. -/
def StateInv (st : BundleState) : Prop :=
  (∀ p ∈ st.assetMap, p.2.filename = p.1) ∧
    (∀ a ∈ st.wasmAssets, a.filename ∈ st.assetMap.map (·.1)) ∧
    (∀ p ∈ st.pluginAssets, p.filename ∈ st.assetMap.map (·.1))

theorem processEntry_inv (c : Crypto) (run : RunEnv) (config : CDNBuildConfig)
    (st : BundleState) (e : String × BundleItem) (h : StateInv st) :
    StateInv (processEntry c run config st e) := by
  obtain ⟨h1, h2, h3⟩ := h
  have hfile : ∀ s, (createAssetInfo c run e.1 s config).filename = e.1 :=
    fun _ => rfl
  rcases e with ⟨f, it⟩
  cases it with
  | chunk s =>
    refine ⟨mapSet_filename_inv _ _ _ (hfile s) h1, ?_, ?_⟩
    · intro a ha
      exact mem_keys_mapSet_of_mem _ _ _ _ (h2 a ha)
    · intro p hp
      exact mem_keys_mapSet_of_mem _ _ _ _ (h3 p hp)
  | asset s =>
    simp only [processEntry]
    by_cases hw : jsEndsWith f ".wasm"
    · simp only [if_pos hw]
      refine ⟨mapSet_filename_inv _ _ _ (hfile s) h1, ?_, ?_⟩
      · intro a ha
        rcases List.mem_append.mp ha with ha | ha
        · exact mem_keys_mapSet_of_mem _ _ _ _ (h2 a ha)
        · rcases List.mem_singleton.mp ha with rfl
          exact mem_keys_mapSet_self _ _ _
      · intro p hp
        exact mem_keys_mapSet_of_mem _ _ _ _ (h3 p hp)
    · simp only [if_neg hw]
      by_cases hp : jsIncludes f "plugin" = true
      · simp only [if_pos hp]
        refine ⟨mapSet_filename_inv _ _ _ (hfile s) h1, ?_, ?_⟩
        · intro a ha
          exact mem_keys_mapSet_of_mem _ _ _ _ (h2 a ha)
        · intro q hq
          rcases List.mem_append.mp hq with hq | hq
          · exact mem_keys_mapSet_of_mem _ _ _ _ (h3 q hq)
          · rcases List.mem_singleton.mp hq with rfl
            exact mem_keys_mapSet_self _ _ _
      · simp only [if_neg hp]
        refine ⟨mapSet_filename_inv _ _ _ (hfile s) h1, ?_, ?_⟩
        · intro a ha
          exact mem_keys_mapSet_of_mem _ _ _ _ (h2 a ha)
        · intro q hq
          exact mem_keys_mapSet_of_mem _ _ _ _ (h3 q hq)

theorem foldl_inv (c : Crypto) (run : RunEnv) (config : CDNBuildConfig) :
    ∀ (bundle : List (String × BundleItem)) (st : BundleState), StateInv st →
      StateInv (bundle.foldl (processEntry c run config) st) := by
  intro bundle
  induction bundle with
  | nil => intro st h; exact h
  | cons e es ih =>
    intro st h
    exact ih _ (processEntry_inv c run config st e h)

theorem processEntry_assetMap (c : Crypto) (run : RunEnv)
    (config : CDNBuildConfig) (st : BundleState) (e : String × BundleItem) :
    (processEntry c run config st e).assetMap =
      mapSet st.assetMap e.1 (createAssetInfo c run e.1 (bundleContent e.2) config) := by
  rcases e with ⟨f, it⟩
  cases it with
  | asset s =>
    simp only [processEntry, bundleContent]
    by_cases hw : jsEndsWith f ".wasm" <;> by_cases hp : jsIncludes f "plugin" = true <;>
      simp [hw, hp]
  | chunk s => rfl

theorem mapSet_append (m : List (String × AssetInfo)) (k : String)
    (v : AssetInfo) (h : (m.any fun p => p.1 = k) = false) :
    mapSet m k v = m ++ [(k, v)] := by
  simp [mapSet, h]

theorem foldl_assetMap_append (c : Crypto) (run : RunEnv)
    (config : CDNBuildConfig) :
    ∀ (bundle : List (String × BundleItem)) (st : BundleState),
      (∀ e ∈ bundle, e.1 ∉ st.assetMap.map (·.1)) →
      (bundle.map (·.1)).Nodup →
      (bundle.foldl (processEntry c run config) st).assetMap =
        st.assetMap ++ bundle.map fun e =>
          (e.1, createAssetInfo c run e.1 (bundleContent e.2) config) := by
  intro bundle
  induction bundle with
  | nil => intro st _ _; simp
  | cons e es ih =>
    intro st hnotin hnodup
    have he : e.1 ∉ st.assetMap.map (·.1) := hnotin e (List.mem_cons_self e es)
    have hany : (st.assetMap.any fun p => p.1 = e.1) = false := by
      by_contra hab
      have hat : (st.assetMap.any fun p => p.1 = e.1) = true := by
        cases hcase : st.assetMap.any fun p => p.1 = e.1 with
        | true => rfl
        | false => exact absurd hcase hab
      rcases List.any_eq_true.mp hat with ⟨p, hp, hpk⟩
      have hk : p.1 = e.1 := of_decide_eq_true hpk
      exact he (hk ▸ List.mem_map_of_mem _ hp)
    have hstep : (processEntry c run config st e).assetMap =
        st.assetMap ++ [(e.1, createAssetInfo c run e.1 (bundleContent e.2) config)] := by
      rw [processEntry_assetMap, mapSet_append _ _ _ hany]
    have hnotin2 : ∀ e2 ∈ es,
        e2.1 ∉ (processEntry c run config st e).assetMap.map (·.1) := by
      intro e2 he2
      rw [hstep]
      simp only [List.map_append, List.mem_append]
      rintro (hmem | hmem)
      · exact hnotin e2 (List.mem_cons_of_mem e he2) hmem
      · have hne : e2.1 ≠ e.1 := by
          have hnd := hnodup
          rw [List.map_cons, List.nodup_cons] at hnd
          intro heq
          exact hnd.1 (heq ▸ List.mem_map_of_mem _ he2)
        simp only [List.map_cons, List.map_nil, List.mem_singleton] at hmem
        exact hne hmem
    have hnodup2 : (es.map (·.1)).Nodup := by
      rw [List.map_cons, List.nodup_cons] at hnodup
      exact hnodup.2
    rw [List.foldl_cons, ih (processEntry c run config st e) hnotin2 hnodup2, hstep]
    simp

theorem charListLt_irrefl : ∀ l : List Char, charListLt l l = false := by
  intro l
  induction l with
  | nil => rfl
  | cons a as ih => simp [charListLt, lt_irrefl, ih]

theorem charListLt_asymm :
    ∀ l1 l2 : List Char, charListLt l1 l2 = true → charListLt l2 l1 = false := by
  intro l1
  induction l1 with
  | nil =>
    intro l2 h
    cases l2 with
    | nil => exact absurd h (by simp [charListLt])
    | cons b bs => rfl
  | cons a as ih =>
    intro l2 h
    cases l2 with
    | nil => exact absurd h (by simp [charListLt])
    | cons b bs =>
      by_cases hab : a < b
      · have hba : ¬ b < a := lt_asymm hab
        simp [charListLt, hab, hba]
      · by_cases hba : b < a
        · exact absurd h (by simp [charListLt, hab, hba])
        · have htail : charListLt as bs = true := by
            simpa [charListLt, hab, hba] using h
          simp [charListLt, hab, hba, ih bs htail]

theorem strLtB_ne {a b : String} (h : strLtB a b = true) : a ≠ b := by
  intro heq
  subst heq
  rw [strLtB, charListLt_irrefl] at h
  exact absurd h (by simp)

theorem strLeB_of_strLtB {a b : String} (h : strLtB a b = true) :
    strLeB a b = true := by
  rw [strLeB, strLtB]
  rw [strLtB] at h
  rw [charListLt_asymm _ _ h]
  rfl

theorem insertLe_of_forall_le {α : Type} (le : α → α → Bool) (x : α)
    (l : List α) (h : ∀ y ∈ l, le x y = true) : insertLe le x l = x :: l := by
  cases l with
  | nil => rfl
  | cons y ys =>
    unfold insertLe
    rw [if_pos (h y (List.mem_cons_self y ys))]

theorem sortLe_of_pairwise {α : Type} (le : α → α → Bool) :
    ∀ l : List α, l.Pairwise (fun a b => le a b = true) → sortLe le l = l := by
  intro l
  induction l with
  | nil => intro _; rfl
  | cons x xs ih =>
    intro h
    rcases List.pairwise_cons.mp h with ⟨hx, hxs⟩
    rw [sortLe, ih hxs, insertLe_of_forall_le le x xs hx]

theorem orElse_cases {α : Type} (o1 : Option α) (g : Unit → Option α) (a : α)
    (h : o1.orElse g = some a) : o1 = some a ∨ g () = some a := by
  cases o1 with
  | none => right; simpa [Option.orElse] using h
  | some b => left; simpa [Option.orElse] using h

theorem head?_mem {α : Type} {l : List α} {a : α} (h : l.head? = some a) :
    a ∈ l := by
  cases l with
  | nil => exact absurd h (by simp)
  | cons b bs =>
    simp only [List.head?_cons, Option.some.injEq] at h
    exact h ▸ List.mem_cons_self b bs

/-- Every asset selected for a required category is one of the mapped
assets (or the selection is empty). -/
theorem categorized_mem (st : BundleState) (hinv : StateInv st)
    (o : Option AssetInfo) (a : AssetInfo)
    (hsel : o = some a)
    (hcases : ∀ b, o = some b → b ∈ st.assetMap.map (·.2)) :
    a.filename ∈ st.assetMap.map (·.1) := by
  have hmem := hcases a hsel
  rcases List.mem_map.mp hmem with ⟨p, hp, hpa⟩
  have hfn : p.2.filename = p.1 := hinv.1 p hp
  rw [← hpa, hfn]
  exact List.mem_map_of_mem _ hp

end Build

namespace Deploy

mutual

/-- The running `totalSize` of a single scan step equals the size sum of the
files it contributes. -/
theorem scanEntry_totalSize (h : List Nat → String) (rel : String)
    (e : FSEntry) :
    (scanEntry h rel e).2 = ((scanEntry h rel e).1.map (·.size)).sum := by
  cases e with
  | file name content => simp [scanEntry]
  | dir name entries =>
    simpa [scanEntry] using scanEntries_totalSize h (joinPath rel name) entries

/-- The running `totalSize` of a scan equals the size sum of the scanned
files. -/
theorem scanEntries_totalSize (h : List Nat → String) (rel : String)
    (l : List FSEntry) :
    (scanEntries h rel l).2 = ((scanEntries h rel l).1.map (·.size)).sum := by
  cases l with
  | nil => simp [scanEntries]
  | cons e es =>
    have h1 := scanEntry_totalSize h rel e
    have h2 := scanEntries_totalSize h rel es
    simp [scanEntries, h1, h2]

end

end Deploy

/-! ## The claims -/

/-- C5.  The overall success flag of a `ValidationResult` is computed
from the check statuses as: in strict mode, success holds iff every
validation check and every security check has status `passed`; in normal
mode, success holds iff no validation check and no security check has
status `failed` (warnings are tolerated). -/
theorem Validator.determineOverallSuccess_spec
    (checks : List Validator.ValidationCheck)
    (security : List Validator.SecurityCheck) :
    (Validator.determineOverallSuccess true checks security = true ↔
      ((∀ c ∈ checks, c.status = .passed) ∧ ∀ s ∈ security, s.status = .passed)) ∧
    (Validator.determineOverallSuccess false checks security = true ↔
      ((∀ c ∈ checks, c.status ≠ .failed) ∧ ∀ s ∈ security, s.status ≠ .failed)) := by
  constructor
  · simp [Validator.determineOverallSuccess, List.all_eq_true]
  · simp [Validator.determineOverallSuccess, List.all_eq_true]

/-- Witness for C5 at concrete check lists: a warning fails strict mode but
passes normal mode. -/
theorem Validator.determineOverallSuccess_spec_witness :
    (¬ Validator.determineOverallSuccess true
        [{ name := "a", status := .warning, message := "m" }] [] = true) ∧
      Validator.determineOverallSuccess false
        [{ name := "a", status := .warning, message := "m" }] [] = true := by
  refine ⟨fun hsucc => ?_, ?_⟩
  · have h := (Validator.determineOverallSuccess_spec
      [{ name := "a", status := .warning, message := "m" }] []).1.mp hsucc
    have h2 : Validator.Status.warning = Validator.Status.passed :=
      h.1 { name := "a", status := .warning, message := "m" } (by simp)
    exact absurd h2 (by decide)
  · exact (Validator.determineOverallSuccess_spec
      [{ name := "a", status := .warning, message := "m" }] []).2.mpr
      ⟨by decide, by decide⟩

/-- C7.  For every directory tree accepted by the asset scan, the
`AssetBundle` returned by `prepareAssetBundle` satisfies
`totalSize = sum of f.size over all f in files` (immediately after the
scan, for any number of files including zero). -/
theorem Deploy.prepareAssetBundle_totalSize (w : Deploy.World) (dir : String)
    (b : Deploy.AssetBundle)
    (h : Deploy.prepareAssetBundle w dir = .ok b) :
    b.totalSize = (b.files.map (·.size)).sum := by
  unfold Deploy.prepareAssetBundle at h
  cases hd : w.assetDirs dir with
  | none => rw [hd] at h; exact absurd h (by simp)
  | some entries =>
    rw [hd] at h
    simp only [Except.ok.injEq] at h
    subst h
    exact Deploy.scanEntries_totalSize w.sha384hex "" entries

/-- Witness for C7: the demo scan succeeds and its `totalSize` is the size
sum of its two files. -/
theorem Deploy.prepareAssetBundle_totalSize_witness :
    Deploy.prepareAssetBundle Deploy.demoWorld "cdn/dist" = .ok Deploy.demoBundle ∧
      Deploy.demoBundle.totalSize = (Deploy.demoBundle.files.map (·.size)).sum :=
  ⟨rfl, Deploy.prepareAssetBundle_totalSize Deploy.demoWorld "cdn/dist"
    Deploy.demoBundle rfl⟩

namespace Retry

theorem delaysFrom_eq_range (c : Nat) : ∀ first,
    delaysFrom first c = (List.range c).map fun i => delayBeforeRetry (first + i) := by
  induction c with
  | zero => intro first; simp [delaysFrom]
  | succ m ih =>
    intro first
    rw [List.range_succ_eq_map, delaysFrom, ih (first + 1)]
    simp only [List.map_cons, List.map_map]
    refine congrArg₂ _ (by simp) ?_
    refine congrArg₂ _ ?_ rfl
    funext i
    simp [Function.comp]
    ring_nf

theorem withRetryGo_calls_le (op : Nat → Except E T) (m : Nat) :
    ∀ r last, (withRetryGo op m r last).calls ≤ r := by
  intro r
  induction r with
  | zero => intro last; simp [withRetryGo]
  | succ s ih =>
    intro last
    simp only [withRetryGo]
    cases op (m - s) with
    | ok v => simp
    | error e => simpa using Nat.succ_le_succ (ih (some e))

theorem withRetryGo_success (op : Nat → Except E T) (m : Nat) :
    ∀ r, r ≤ m → ∀ last k v, m - r < k → k ≤ m →
      (∀ j, m - r < j → j < k → ∃ e, op j = .error e) →
      op k = .ok v →
      withRetryGo op m r last =
        ⟨.ok v, k - (m - r), delaysFrom (m - r + 1) (k - (m - r) - 1)⟩ := by
  intro r
  induction r with
  | zero => intro _ _ k _ h1 h2 _ _; omega
  | succ s ih =>
    intro hsm last k v h1 h2 hfail hok
    by_cases hk : k = m - s
    · subst hk
      have hops : op (m - s) = .ok v := hok
      have hc : m - s - (m - (s + 1)) = 1 := by omega
      have hd : m - s - (m - (s + 1)) - 1 = 0 := by omega
      simp [withRetryGo, hops, hc, hd, delaysFrom]
    · have hlt : m - s < k := by omega
      obtain ⟨e, he⟩ := hfail (m - s) (by omega) hlt
      have hrest := ih (by omega) (some e) k v hlt h2
        (fun j hj1 hj2 => hfail j (by omega) hj2) hok
      have hms : m - s < m := by omega
      have hcalls : k - (m - s) + 1 = k - (m - (s + 1)) := by omega
      have hfirst : m - (s + 1) + 1 = m - s := by omega
      have hcount : k - (m - (s + 1)) - 1 = (k - (m - s) - 1) + 1 := by omega
      simp only [withRetryGo, he, hrest, if_pos hms, RetryTrace.mk.injEq]
      refine ⟨trivial, by omega, ?_⟩
      rw [hfirst, hcount]
      rfl

theorem withRetryGo_allfail (op : Nat → Except E T) (m : Nat) :
    ∀ r, 1 ≤ r → r ≤ m →
      (∀ j, m - r < j → j ≤ m → ∃ e, op j = .error e) →
      ∀ last, ∃ e, op m = .error e ∧
        withRetryGo op m r last =
          ⟨.error (some e), r, delaysFrom (m - r + 1) (r - 1)⟩ := by
  intro r
  induction r with
  | zero => intro h1; omega
  | succ s ih =>
    intro _ hsm hfail last
    by_cases hs : s = 0
    · subst hs
      obtain ⟨e, he⟩ := hfail m (by omega) (le_refl m)
      have hm1 : m - 1 + 1 = m := by omega
      refine ⟨e, he, ?_⟩
      have hms : ¬ (m - 0 < m) := by omega
      simp [withRetryGo, hm1, he, hms, delaysFrom, withRetryGo]
    · obtain ⟨efirst, hefirst⟩ := hfail (m - s) (by omega) (by omega)
      obtain ⟨e, he, hrest⟩ := ih (by omega) (by omega)
        (fun j hj1 hj2 => hfail j (by omega) hj2) (some efirst)
      have hms : m - s < m := by omega
      have hfirst : m - (s + 1) + 1 = m - s := by omega
      refine ⟨e, he, ?_⟩
      simp only [withRetryGo, hefirst, hrest, if_pos hms, RetryTrace.mk.injEq]
      refine ⟨trivial, trivial, ?_⟩
      rw [hfirst]
      have hcount : s + 1 - 1 = (s - 1) + 1 := by omega
      rw [hcount]
      rfl

/-- The `delaysFrom` starting at attempt 1 is the backoff table of the claim. -/
theorem delaysFrom_one (c : Nat) :
    delaysFrom 1 c = (List.range c).map fun i => min (1000 * 2 ^ i) 10000 := by
  rw [delaysFrom_eq_range]
  refine congrArg₂ _ ?_ rfl
  funext i
  simp [delayBeforeRetry, Nat.add_sub_cancel_left]

end Retry

/-- C8.  `withRetry` retries the whole operation with exponential
backoff: for every operation and attempt budget `n ≥ 1`, the operation is
invoked at most `n` times; the result of the first successful invocation is
returned with no further invocations; the delay before retrying after
failed attempt `k` (`k < n`) is `min (1000 * 2^(k-1), 10000)` milliseconds;
and after `n` consecutive failures the last error is rethrown. -/
theorem Retry.withRetry_spec {E T : Type} (op : Nat → Except E T) (n : Nat)
    (hn : 1 ≤ n) :
    (Retry.withRetry op n).calls ≤ n ∧
    (∀ k v, 1 ≤ k → k ≤ n →
      (∀ j, 1 ≤ j → j < k → ∃ e, op j = .error e) → op k = .ok v →
      Retry.withRetry op n =
        ⟨.ok v, k, (List.range (k - 1)).map fun i => min (1000 * 2 ^ i) 10000⟩) ∧
    ((∀ j, 1 ≤ j → j ≤ n → ∃ e, op j = .error e) →
      ∃ e, op n = .error e ∧
        Retry.withRetry op n =
          ⟨.error (some e), n,
           (List.range (n - 1)).map fun i => min (1000 * 2 ^ i) 10000⟩) := by
  refine ⟨Retry.withRetryGo_calls_le op n n none, ?_, ?_⟩
  · intro k v hk1 hk2 hfail hok
    have h := Retry.withRetryGo_success op n n (le_refl n) none k v
      (by omega) hk2 (fun j hj1 hj2 => hfail j (by omega) hj2) hok
    rw [Retry.withRetry, h, ← Retry.delaysFrom_one]
    have h1 : n - n + 1 = 1 := by omega
    have h2 : k - (n - n) = k := by omega
    rw [h1, h2]
  · intro hfail
    obtain ⟨e, he, hgo⟩ := Retry.withRetryGo_allfail op n n hn (le_refl n)
      (fun j hj1 hj2 => hfail j (by omega) hj2) none
    refine ⟨e, he, ?_⟩
    rw [Retry.withRetry, hgo, ← Retry.delaysFrom_one]
    have h1 : n - n + 1 = 1 := by omega
    rw [h1]

/-- Witness for C8: three attempts with two failures produce the result of
the third call after backoff delays of 1000ms and 2000ms. -/
theorem Retry.withRetry_spec_witness :
    Retry.withRetry Retry.demoOp 3 = ⟨.ok 42, 3, [1000, 2000]⟩ := by
  have h := (Retry.withRetry_spec Retry.demoOp 3 (by decide)).2.1 3 42
    (by decide) (by decide)
    (fun j hj1 hj2 => ⟨toString j, by
      have hj : j ≤ 2 := by omega
      simp [Retry.demoOp, hj]⟩)
    rfl
  simpa using h

namespace Build

/-- C2 (counterexample).  The claim "the integrity keys are a subset of
the filenames present in `manifest.assets`" fails: for a bundle holding
`core.js` and `style.css`, the uncategorizable `style.css` has an integrity
entry but appears nowhere in `manifest.assets`. -/
theorem integrity_keys_not_subset_of_assets :
    ("style.css" ∈ (generateBundleHook demoCrypto demoRun1 demoConfig
        [("core.js", .asset [1]), ("style.css", .asset [2])]).manifest.integrity.map
          (·.1)) ∧
      "style.css" ∉ manifestAssetFilenames
        (generateBundleHook demoCrypto demoRun1 demoConfig
          [("core.js", .asset [1]), ("style.css", .asset [2])]).manifest := by
  constructor
  · decide
  · decide

/-- C2 (amended).  The converse inclusion holds: the integrity keys are
exactly the filenames of the full asset map, and every filename present in
`manifest.assets` (transitively across core / orchestration /
pluginFramework / plugins / wasm) is an integrity key. -/
theorem manifest_assets_subset_integrity (c : Crypto) (run : RunEnv)
    (config : CDNBuildConfig) (bundle : List (String × BundleItem)) :
    ((generateBundleHook c run config bundle).manifest.integrity.map (·.1) =
      (generateBundleHook c run config bundle).state.assetMap.map (·.1)) ∧
    ∀ f ∈ manifestAssetFilenames
        (generateBundleHook c run config bundle).manifest,
      f ∈ (generateBundleHook c run config bundle).manifest.integrity.map (·.1) := by
  have hinv : StateInv (bundle.foldl (processEntry c run config) {}) :=
    foldl_inv c run config bundle {}
      ⟨by intro p hp; exact absurd hp (by simp),
       by intro a ha; exact absurd ha (by simp),
       by intro p hp; exact absurd hp (by simp)⟩
  have hkeys : (generateBundleHook c run config bundle).manifest.integrity.map (·.1) =
      (generateBundleHook c run config bundle).state.assetMap.map (·.1) := by
    simp [generateBundleHook, generateManifest, generateIntegrityMap, List.map_map]
  refine ⟨hkeys, ?_⟩
  intro f hf
  rw [hkeys]
  have hst : (generateBundleHook c run config bundle).state =
      bundle.foldl (processEntry c run config) {} := rfl
  rw [hst]
  set st := bundle.foldl (processEntry c run config) {} with hstdef
  set assetsList := st.assetMap.map (·.2) with hal
  set coreOpt := (assetsList.find? fun a => jsIncludes a.filename "core").orElse
    (fun _ => assetsList.head?) with hcore
  set orchOpt := (assetsList.find? fun a => jsIncludes a.filename "orchestration").orElse
    (fun _ => coreOpt) with horch
  set pfOpt := (assetsList.find? fun a => jsIncludes a.filename "plugin-framework").orElse
    (fun _ => coreOpt) with hpf
  have hcoremem : ∀ a, coreOpt = some a → a ∈ assetsList := by
    intro a h
    rcases orElse_cases _ _ _ h with h | h
    · exact List.mem_of_find?_eq_some h
    · exact head?_mem h
  have horchmem : ∀ a, orchOpt = some a → a ∈ assetsList := by
    intro a h
    rcases orElse_cases _ _ _ h with h | h
    · exact List.mem_of_find?_eq_some h
    · exact hcoremem a h
  have hpfmem : ∀ a, pfOpt = some a → a ∈ assetsList := by
    intro a h
    rcases orElse_cases _ _ _ h with h | h
    · exact List.mem_of_find?_eq_some h
    · exact hcoremem a h
  have hoptmem : ∀ (o : Option AssetInfo), (∀ a, o = some a → a ∈ assetsList) →
      f ∈ (o.map (·.filename)).toList → f ∈ st.assetMap.map (·.1) := by
    intro o ho hfo
    cases o with
    | none => exact absurd hfo (by simp)
    | some a =>
      have hfa : f = a.filename := by simpa using hfo
      subst hfa
      exact categorized_mem st hinv (some a) a rfl ho
  have hshape : manifestAssetFilenames
      (generateBundleHook c run config bundle).manifest =
        (coreOpt.map (·.filename)).toList ++ (orchOpt.map (·.filename)).toList ++
          (pfOpt.map (·.filename)).toList ++ st.pluginAssets.map (·.filename) ++
          st.wasmAssets.map (·.filename) := rfl
  rw [hshape] at hf
  rcases List.mem_append.mp hf with hf | hf
  · rcases List.mem_append.mp hf with hf | hf
    · rcases List.mem_append.mp hf with hf | hf
      · rcases List.mem_append.mp hf with hf | hf
        · exact hoptmem coreOpt hcoremem hf
        · exact hoptmem orchOpt horchmem hf
      · exact hoptmem pfOpt hpfmem hf
    · rcases List.mem_map.mp hf with ⟨p, hp, hpf2⟩
      exact hpf2 ▸ hinv.2.2 p hp
  · rcases List.mem_map.mp hf with ⟨a, ha, haf⟩
    exact haf ▸ hinv.2.1 a ha

/-- Witness for C2 (amended) at the concrete two-file bundle. -/
theorem manifest_assets_subset_integrity_witness :
    "core.js" ∈ (generateBundleHook demoCrypto demoRun1 demoConfig
      [("core.js", .asset [1]), ("style.css", .asset [2])]).manifest.integrity.map
        (·.1) :=
  (manifest_assets_subset_integrity demoCrypto demoRun1 demoConfig
    [("core.js", .asset [1]), ("style.css", .asset [2])]).2 "core.js" (by decide)

/-- C6 (counterexample).  The claim "for every required category with
no matching asset, the first available asset is used as the fallback" fails
for `orchestration`: with assets `app.js, my-core.js` (in that order), no
filename contains "orchestration", yet the orchestration slot receives
`my-core.js` (the resolved core asset), not the first asset `app.js`. -/
theorem classification_fallback_counterexample :
    ((generateBundleHook demoCrypto demoRun1 demoConfig
        [("app.js", .asset [1]), ("my-core.js", .asset [2])]).state.assetMap.all
      fun p => !jsIncludes p.2.filename "orchestration") = true ∧
    ((generateBundleHook demoCrypto demoRun1 demoConfig
        [("app.js", .asset [1]), ("my-core.js", .asset [2])]).manifest.assets.orchestration.map
      (·.filename)) = some "my-core.js" ∧
    (((generateBundleHook demoCrypto demoRun1 demoConfig
        [("app.js", .asset [1]), ("my-core.js", .asset [2])]).state.assetMap.map
      (·.2)).head?.map (·.filename)) = some "app.js" ∧
    ("my-core.js" : String) ≠ "app.js" := by
  refine ⟨by decide, by decide, by decide, by decide⟩

/-- C6 (amended).  `assets.core`, `assets.orchestration` and
`assets.pluginFramework` are chosen by first substring match of the
filename against "core", "orchestration" and "plugin-framework"; the
fallback for `core` is the first available asset, while the fallback for
`orchestration` and `pluginFramework` is the already-resolved core asset
(which coincides with the first asset only when nothing matches "core"). -/
theorem manifest_classification (c : Crypto) (run : RunEnv)
    (config : CDNBuildConfig) (bundle : List (String × BundleItem)) :
    (∀ a, ((generateBundleHook c run config bundle).state.assetMap.map (·.2)).find?
        (fun b => jsIncludes b.filename "core") = some a →
      (generateBundleHook c run config bundle).manifest.assets.core = some a) ∧
    ((((generateBundleHook c run config bundle).state.assetMap.map (·.2)).find?
        (fun b => jsIncludes b.filename "core") = none) →
      (generateBundleHook c run config bundle).manifest.assets.core =
        ((generateBundleHook c run config bundle).state.assetMap.map (·.2)).head?) ∧
    (∀ a, ((generateBundleHook c run config bundle).state.assetMap.map (·.2)).find?
        (fun b => jsIncludes b.filename "orchestration") = some a →
      (generateBundleHook c run config bundle).manifest.assets.orchestration = some a) ∧
    ((((generateBundleHook c run config bundle).state.assetMap.map (·.2)).find?
        (fun b => jsIncludes b.filename "orchestration") = none) →
      (generateBundleHook c run config bundle).manifest.assets.orchestration =
        (generateBundleHook c run config bundle).manifest.assets.core) ∧
    (∀ a, ((generateBundleHook c run config bundle).state.assetMap.map (·.2)).find?
        (fun b => jsIncludes b.filename "plugin-framework") = some a →
      (generateBundleHook c run config bundle).manifest.assets.pluginFramework = some a) ∧
    ((((generateBundleHook c run config bundle).state.assetMap.map (·.2)).find?
        (fun b => jsIncludes b.filename "plugin-framework") = none) →
      (generateBundleHook c run config bundle).manifest.assets.pluginFramework =
        (generateBundleHook c run config bundle).manifest.assets.core) := by
  set st := bundle.foldl (processEntry c run config) {} with hstdef
  set assetsList := st.assetMap.map (·.2) with hal
  have hcoreeq : (generateBundleHook c run config bundle).manifest.assets.core =
      (assetsList.find? fun b => jsIncludes b.filename "core").orElse
        (fun _ => assetsList.head?) := rfl
  have horcheq : (generateBundleHook c run config bundle).manifest.assets.orchestration =
      (assetsList.find? fun b => jsIncludes b.filename "orchestration").orElse
        (fun _ => (assetsList.find? fun b => jsIncludes b.filename "core").orElse
          (fun _ => assetsList.head?)) := rfl
  have hpfeq : (generateBundleHook c run config bundle).manifest.assets.pluginFramework =
      (assetsList.find? fun b => jsIncludes b.filename "plugin-framework").orElse
        (fun _ => (assetsList.find? fun b => jsIncludes b.filename "core").orElse
          (fun _ => assetsList.head?)) := rfl
  have hmapeq : (generateBundleHook c run config bundle).state.assetMap.map (·.2) =
      assetsList := rfl
  refine ⟨?_, ?_, ?_, ?_, ?_, ?_⟩
  · intro a ha
    rw [hmapeq] at ha
    rw [hcoreeq, ha]
    rfl
  · intro hn
    rw [hmapeq] at hn
    rw [hcoreeq, hn, hmapeq]
    rfl
  · intro a ha
    rw [hmapeq] at ha
    rw [horcheq, ha]
    rfl
  · intro hn
    rw [hmapeq] at hn
    rw [horcheq, hn, hcoreeq]
    rfl
  · intro a ha
    rw [hmapeq] at ha
    rw [hpfeq, ha]
    rfl
  · intro hn
    rw [hmapeq] at hn
    rw [hpfeq, hn, hcoreeq]
    rfl

/-- Witness for C6 (amended): with no "orchestration" match, the
orchestration slot equals the core slot. -/
theorem manifest_classification_witness :
    (generateBundleHook demoCrypto demoRun1 demoConfig
        [("app.js", .asset [1]), ("my-core.js", .asset [2])]).manifest.assets.orchestration =
      (generateBundleHook demoCrypto demoRun1 demoConfig
        [("app.js", .asset [1]), ("my-core.js", .asset [2])]).manifest.assets.core :=
  (manifest_classification demoCrypto demoRun1 demoConfig
    [("app.js", .asset [1]), ("my-core.js", .asset [2])]).2.2.2.1 (by decide)

/-- C9 (counterexample).  The size table of the claim omits the
`orchestration.min.js <= 800KB` entry of `SIZE_LIMITS`: a 900KB
`orchestration.min.js` violates none of the five claimed limits
(`claimSizeIssues` is empty) yet the code emits a warning. -/
theorem bundle_size_table_counterexample :
    validateBundleSizes
        [("orchestration.min.js",
          { filename := "orchestration.min.js", size := 900 * 1024
            compressedSize := 630 * 1024, hash := "h"
            mimeType := "application/javascript", cacheDuration := 31536000
            lastModified := "t" })] =
      ["orchestration.min.js exceeds size limit: 921600 > 819200 bytes"] ∧
    claimSizeIssues
        [("orchestration.min.js",
          { filename := "orchestration.min.js", size := 900 * 1024
            compressedSize := 630 * 1024, hash := "h"
            mimeType := "application/javascript", cacheDuration := 31536000
            lastModified := "t" })] = [] := by
  refine ⟨by decide, by decide⟩

/-- C9 (amended).  After manifest generation every asset is checked
against the size table `SIZE_LIMITS` of the code (core.min.js ≤ 2MB,
orchestration.min.js ≤ 800KB, plugin-framework.min.js ≤ 500KB, names
containing "wasm" ≤ 1.5MB, names containing "plugin" ≤ 500KB, total ≤ 5MB),
and violations only produce warnings: `validateBundleSizes` is a total
function whose result is empty exactly when no limit is exceeded, the
warnings of the `generateBundle` hook are exactly its result, the manifest
is emitted regardless, and a 3MB core asset yields one warning. -/
theorem validateBundleSizes_warns_only (c : Crypto) (run : RunEnv)
    (config : CDNBuildConfig) (bundle : List (String × BundleItem)) :
    ("manifest.json" ∈ (generateBundleHook c run config bundle).emittedFiles) ∧
    ((generateBundleHook c run config bundle).warnings =
      validateBundleSizes (generateBundleHook c run config bundle).state.assetMap) ∧
    (∀ assets : List (String × AssetInfo),
      (validateBundleSizes assets = [] ↔
        ((∀ p ∈ assets, ∀ q ∈ SIZE_LIMITS, jsIncludes p.1 q.1 = true → p.2.size ≤ q.2) ∧
          ((assets.map (·.2)).map (·.size)).sum ≤ 5 * 1024 * 1024))) ∧
    (validateBundleSizes
        [("core.min.js",
          { filename := "core.min.js", size := 3 * 1024 * 1024
            compressedSize := 0, hash := "h"
            mimeType := "application/javascript", cacheDuration := 31536000
            lastModified := "t" })] =
      ["core.min.js exceeds size limit: 3145728 > 2097152 bytes"]) := by
  refine ⟨?_, rfl, ?_, by decide⟩
  · simp [generateBundleHook]
  · intro assets
    unfold validateBundleSizes
    simp only [List.append_eq_nil, List.flatMap_eq_nil_iff, List.filterMap_eq_nil_iff]
    constructor
    · rintro ⟨h1, h2⟩
      constructor
      · intro p hp q hq hinc
        have := h1 p hp q hq
        by_contra hgt
        rw [if_pos ⟨hinc, by omega⟩] at this
        exact absurd this (by simp)
      · by_contra hgt
        rw [if_pos (by omega)] at h2
        exact absurd h2 (by simp)
    · rintro ⟨h1, h2⟩
      constructor
      · intro p hp q hq
        by_cases hinc : jsIncludes p.1 q.1 = true
        · have := h1 p hp q hq hinc
          rw [if_neg (by omega)]
        · rw [if_neg (by simp [hinc])]
      · rw [if_neg (by omega)]

/-- Witness for C9 (amended): an in-budget singleton asset map produces no
warnings. -/
theorem validateBundleSizes_warns_only_witness :
    validateBundleSizes
        [("core.min.js",
          { filename := "core.min.js", size := 1024
            compressedSize := 716, hash := "h"
            mimeType := "application/javascript", cacheDuration := 31536000
            lastModified := "t" })] = [] :=
  ((validateBundleSizes_warns_only demoCrypto demoRun1 demoConfig []).2.2.1
    [("core.min.js",
      { filename := "core.min.js", size := 1024
        compressedSize := 716, hash := "h"
        mimeType := "application/javascript", cacheDuration := 31536000
        lastModified := "t" })]).mpr ⟨by decide, by decide⟩

/-- C1.  Manifest generation is deterministic: for a fixed bundle of
files with fixed byte content in a fixed sorted enumeration order, the two
runs `r1` and `r2` (which may differ in every nondeterministic input: wall
clock, package version, node version, git state) produce identical per-file
SHA-384 hashes and an identical `buildHash`, and `buildHash` is the SHA-256
of the concatenation of the individual asset hashes in the canonical
filename-sorted order, truncated to 8 hex characters. -/
theorem generateManifest_deterministic (c : Crypto) (config : CDNBuildConfig)
    (bundle : List (String × BundleItem)) (r1 r2 : RunEnv)
    (hsorted : bundle.Pairwise fun p q => strLtB p.1 q.1 = true) :
    ((generateBundleHook c r1 config bundle).state.assetMap.map fun p => (p.1, p.2.hash)) =
      ((generateBundleHook c r2 config bundle).state.assetMap.map fun p => (p.1, p.2.hash)) ∧
    (generateBundleHook c r1 config bundle).manifest.buildHash =
      (generateBundleHook c r2 config bundle).manifest.buildHash ∧
    (generateBundleHook c r1 config bundle).manifest.buildHash =
      strTake (c.sha256hex (String.join
        ((sortLe (fun p q => strLeB p.1 q.1)
            (generateBundleHook c r1 config bundle).state.assetMap).map
          (·.2.hash)))) 8 := by
  have hkeysnodup : (bundle.map (·.1)).Nodup := by
    have hlt : (bundle.map (·.1)).Pairwise fun a b => strLtB a b = true :=
      List.pairwise_map.mpr hsorted
    exact hlt.imp fun h => strLtB_ne h
  have hmap : ∀ r : RunEnv, (generateBundleHook c r config bundle).state.assetMap =
      bundle.map fun e => (e.1, createAssetInfo c r e.1 (bundleContent e.2) config) := by
    intro r
    have h := foldl_assetMap_append c r config bundle {}
      (by intro e _ hmem; exact absurd hmem (by simp)) hkeysnodup
    simpa using h
  have hbh : ∀ r : RunEnv, (generateBundleHook c r config bundle).manifest.buildHash =
      strTake (c.sha256hex (String.join
        (((generateBundleHook c r config bundle).state.assetMap.map (·.2)).map
          (·.hash)))) 8 := by
    intro r
    rfl
  refine ⟨?_, ?_, ?_⟩
  · rw [hmap r1, hmap r2, List.map_map, List.map_map]
    rfl
  · rw [hbh r1, hbh r2, hmap r1, hmap r2, List.map_map, List.map_map,
      List.map_map, List.map_map]
    rfl
  · rw [hbh r1]
    have hpw : ((generateBundleHook c r1 config bundle).state.assetMap).Pairwise
        (fun p q => (fun p q : String × AssetInfo => strLeB p.1 q.1) p q = true) := by
      rw [hmap r1]
      refine List.pairwise_map.mpr (hsorted.imp fun h => ?_)
      exact strLeB_of_strLtB h
    rw [sortLe_of_pairwise _ _ hpw, List.map_map]
    rfl

/-- Witness for C1 at a concrete sorted two-file bundle and two runs that
differ in every nondeterministic input. -/
theorem generateManifest_deterministic_witness :
    (generateBundleHook demoCrypto demoRun1 demoConfig
        [("a.js", .asset [1]), ("b.wasm", .asset [2, 3])]).manifest.buildHash =
      (generateBundleHook demoCrypto demoRun2 demoConfig
        [("a.js", .asset [1]), ("b.wasm", .asset [2, 3])]).manifest.buildHash :=
  (generateManifest_deterministic demoCrypto demoConfig
    [("a.js", .asset [1]), ("b.wasm", .asset [2, 3])] demoRun1 demoRun2
    (by decide)).2.1

end Build

namespace Deploy

/-- C3.  With `dryRun = true`, a configuration accepted by
`loadConfiguration` and an assets directory accepted by
`prepareAssetBundle`, `deploy` returns the synthetic success result with
`deploymentId = "dry-run"` and performs no provider call at all (the call
log is empty); the provider is never even constructed, so the absence of
`GITHUB_TOKEN` (any `w.env`) is irrelevant. -/
theorem deploy_dry_run (w : World) (o : DeploymentOptions)
    (hdry : o.dryRun = true) (cfg : DeploymentConfig)
    (hcfg : loadConfiguration w o = .ok cfg) (b : AssetBundle)
    (hb : prepareAssetBundle w (o.assetsDir.getD "cdn/dist") = .ok b) :
    deploy w o =
      (.ok { success := true, deploymentId := "dry-run",
             url := cfg.baseUrl.getD "https://example.com",
             logs := ["Dry run completed successfully"] }, []) := by
  simp [deploy, hcfg, hb, hdry]

/-- Witness for C3: a dry run against the demo world, whose environment
holds no `GITHUB_TOKEN`, succeeds with `deploymentId = "dry-run"` and an
empty provider-call log. -/
theorem deploy_dry_run_witness :
    deploy demoWorld
        { target := some "github-pages", repository := some "org/repo"
          dryRun := true } =
      (.ok { success := true, deploymentId := "dry-run",
             url := "https://example.com"
             logs := ["Dry run completed successfully"] }, []) ∧
    demoWorld.env "GITHUB_TOKEN" = none :=
  ⟨deploy_dry_run demoWorld
      { target := some "github-pages", repository := some "org/repo"
        dryRun := true }
      rfl
      { target := "github-pages", repository := some "org/repo"
        branch := some "main", customDomain := none
        environment := "production", baseUrl := none
        outputDir := some "cdn/dist" }
      rfl demoBundle rfl,
   rfl⟩

/-- C10.  Dry-run mode does not bypass preconditions: configuration
loading and the asset-directory check run before the dry-run
short-circuit.  With `dryRun = true`, a missing assets directory still
throws "Assets directory not found", and a github-pages target with no
repository configured still throws the configuration error — in both cases
instead of the synthetic dry-run success result. -/
theorem deploy_dry_run_preconditions (w : World) (o : DeploymentOptions)
    (hdry : o.dryRun = true) :
    (∀ cfg, loadConfiguration w o = .ok cfg →
      w.assetDirs (o.assetsDir.getD "cdn/dist") = none →
      deploy w o =
        (.error ("Assets directory not found: " ++ o.assetsDir.getD "cdn/dist"),
         [])) ∧
    ((o.target = none ∨ o.target = some "github-pages") → o.configFile = none →
      o.repository = none →
      deploy w o =
        (.error "GitHub repository is required for GitHub Pages deployment",
         [])) := by
  constructor
  · intro cfg hcfg hmiss
    simp [deploy, hcfg, prepareAssetBundle, hmiss]
  · intro htgt hcf hrepo
    have hload : loadConfiguration w o =
        .error "GitHub repository is required for GitHub Pages deployment" := by
      rcases htgt with h | h <;>
      · simp only [loadConfiguration, h, hcf, hrepo]
        cases o.branch <;> cases o.customDomain <;> cases o.baseUrl <;>
          simp [jsFalsyStr]
    simp [deploy, hload]

/-- Witness for C10: both precondition failures at concrete inputs, with
`dryRun = true`. -/
theorem deploy_dry_run_preconditions_witness :
    deploy { demoWorld with assetDirs := fun _ => none }
        { target := some "github-pages", repository := some "org/repo"
          dryRun := true } =
      (.error "Assets directory not found: cdn/dist", []) ∧
    deploy demoWorld { dryRun := true } =
      (.error "GitHub repository is required for GitHub Pages deployment",
       []) :=
  ⟨(deploy_dry_run_preconditions { demoWorld with assetDirs := fun _ => none }
      { target := some "github-pages", repository := some "org/repo"
        dryRun := true } rfl).1
    { target := "github-pages", repository := some "org/repo"
      branch := some "main", customDomain := none
      environment := "production", baseUrl := none
      outputDir := some "cdn/dist" }
    rfl rfl,
   (deploy_dry_run_preconditions demoWorld { dryRun := true } rfl).2
    (Or.inl rfl) rfl rfl⟩

end Deploy

namespace Validator

/-- C4.  Per-check fault isolation of `validateDeployment` on the
concrete healthy deployment: breaking any one probed URL (its fetch throws
for every method) still yields a `ValidationResult` — the embedding is a
total function of the network, every check containing its own error
handling — in which the failed checks are exactly the table
`allowedFailed` (only checks whose own fetch of the broken URL threw; the
deliberately soft probes — the WASM loop, the DuckDB worker loop, the
sensitive-file loop — degrade to warnings or passes instead), and every
check group that does not fetch the broken URL still contributes an
outcome. -/
theorem validateDeployment_fault_isolation :
    ∀ u ∈ probedUrls demoBase,
      (failedNames (validateDeployment {} (netExcept demoBase u) demoBase) =
        allowedFailed demoBase u) ∧
      ∀ g ∈ checkGroups demoBase, u ∉ g.1 →
        ∃ n ∈ g.2,
          n ∈ resultNames (validateDeployment {} (netExcept demoBase u) demoBase) := by
  decide

/-- Witness for C4 at the broken manifest URL: only the manifest
connectivity check and the asset-integrity check fail. -/
theorem validateDeployment_fault_isolation_witness :
    failedNames
        (validateDeployment {}
          (netExcept demoBase (demoBase ++ "/manifest.json")) demoBase) =
      ["connectivity-manifest", "asset-integrity"] :=
  (validateDeployment_fault_isolation (demoBase ++ "/manifest.json")
    (by decide)).1

end Validator

end DataPrism
